import Mathlib

/-!
Verification of the Exchange_Remover backend core.

This file embeds, as executable Lean definitions, the parts of the backend
that the specification's testable properties talk about:

* the folder scanner `findItemsInFolder` (backend/src/services/exchangeService.js,
  lines 207-266), with the remote `FindItems` capability modelled from the
  collaborator contract of the spec (items/moreAvailable/nextPageOffset paging
  over a per-folder item list);
* the per-mailbox search/delete executors `collectMatchesForMailbox` and
  `deleteForMailbox` (lines 299-382);
* the request-level functions `searchMessages` and `deleteMessages`
  (lines 384-626) including folder resolution, limit clamping, delete-mode
  resolution, per-mailbox task isolation, aggregation and sorting;
* the AQS query builder `buildAqsQuery` (backend/src/utils/queryBuilder.js);
* the purge-operation registry, cancel endpoint and terminal event handlers
  (backend/src/routes/exchangeRoutes.js), and the primary-filter dimension of
  the Joi validation schemas.

Remote I/O is modelled by passing the server-side state (the list of items a
folder holds that match the compiled query, in the server's sort order) as an
explicit argument, and by returning effect logs (number of FindItems calls,
bulk delete calls issued) alongside the values the JavaScript returns.
-/

namespace ExchangeRemover

/-- An EWS item as surfaced by `FindItems`; `id` models the opaque `item.Id`
used both as the delete identifier and (via the transform) in match records. -/
structure Item where
  id : Nat
deriving DecidableEq, Repr

/-- The caller-visible metadata produced by `buildTransform` in
exchangeService.js (lines 192-205).  Only the fields the verified properties
inspect are retained; the remaining fields (subject, sender, receivedAt, ...)
are copied from the item in the same way as `itemId` and do not affect any
claim. -/
structure MatchRecord where
  itemId : Nat
  mailbox : String
  folder : String
deriving DecidableEq, Repr

/-- `buildTransform(mailbox, folder)(item)` from exchangeService.js. -/
def buildTransform (mailbox folder : String) (item : Item) : MatchRecord :=
  { itemId := item.id, mailbox := mailbox, folder := folder }

/-- Shape of one `service.FindItems` response, from the collaborator contract:
`{items[], moreAvailable, nextPageOffset}`. -/
structure FindItemsResponse where
  Items : List Item
  MoreAvailable : Bool
  NextPageOffset : Nat
deriving DecidableEq, Repr

/-- Model of the remote `FindItems` capability: the server holds
`folderItems` (the items of the folder matching the query, already in the
requested receipt-time-descending order) and serves the window starting at
`offset` of size `count`, reporting whether more pages remain and the offset
of the next page. -/
def FindItems (folderItems : List Item) (offset count : Nat) : FindItemsResponse :=
  { Items := (folderItems.drop offset).take count
    MoreAvailable := decide (offset + count < folderItems.length)
    NextPageOffset := offset + count }

/-- The paging loop of `findItemsInFolder` (exchangeService.js lines 214-254).
Each step builds a view of size `min (limit - items.length) pageSize`, issues
one `FindItems` call, appends the returned items while fewer than `limit`
have been collected (the `appendResults` callback), and continues while
`MoreAvailable` holds and the limit is not reached, advancing to
`NextPageOffset`.  On exit the collected list is truncated with
`items.slice(0, limit)`.  The second component counts issued `FindItems`
calls.  `fuel` bounds the recursion; `findItemsInFolder` supplies enough fuel
that it is never exhausted when `pageSize ≥ 1` (see `scanGo_eq`). -/
def scanGo (folderItems : List Item) (pageSize limit : Nat) :
    Nat → Nat → List Item → Nat → List Item × Nat
  | 0, _, acc, calls => (acc.take limit, calls)
  | fuel + 1, offset, acc, calls =>
    let count := min (limit - acc.length) pageSize
    let res := FindItems folderItems offset count
    let acc2 := acc ++ res.Items.take (limit - acc.length)
    if res.MoreAvailable = true ∧ acc2.length < limit then
      scanGo folderItems pageSize limit fuel res.NextPageOffset acc2 (calls + 1)
    else
      (acc2.take limit, calls + 1)

/-- `findItemsInFolder` (exchangeService.js lines 207-266): a `limit ≤ 0`
short-circuits to an empty result before any remote call; otherwise the
paging loop runs starting from offset 0 with an empty accumulator.  Returns
the collected items together with the number of `FindItems` calls issued. -/
def findItemsInFolder (folderItems : List Item) (pageSize : Nat) (limit : Int) :
    List Item × Nat :=
  if limit ≤ 0 then ([], 0)
  else scanGo folderItems pageSize limit.toNat (folderItems.length + 1) 0 [] 0

/-- Case pattern of a string: 1 for an uppercase character, 0 otherwise.
Used as the tie-breaking (case) level of the `localeCompare` model. -/
def caseKey (s : String) : List Nat :=
  s.data.map (fun c => if c.isUpper then 1 else 0)

/-- Lexicographic comparison of two lists of naturals. -/
def natListLe : List Nat → List Nat → Bool
  | [], _ => true
  | _ :: _, [] => false
  | a :: as, b :: bs =>
    if a < b then true else if b < a then false else natListLe as bs

/-- Strict code-unit lexicographic comparison of character lists (characters
compared by their numeric code). -/
def charListLt : List Char → List Char → Bool
  | [], [] => false
  | [], _ :: _ => true
  | _ :: _, [] => false
  | a :: as, b :: bs =>
    if a.toNat < b.toNat then true
    else if b.toNat < a.toNat then false
    else charListLt as bs

/-- `toLowerCase()` on the ASCII strings this system handles, character by
character. -/
def jsToLower (s : String) : String :=
  String.mk (s.data.map Char.toLower)

/-- Case-sensitive code-unit lexicographic order on strings (non-strict).
This is the comparison the specification names for the sorted result list,
stated here to be compared against the comparator the code actually uses. -/
def lexLe (a b : String) : Bool :=
  a = b || charListLt a.data b.data

/-- Model of `a.localeCompare(b) ≤ 0` for the ASCII mailbox addresses this
system handles.  The runtime's default-locale collation (Node with ICU)
compares case-insensitively first (the lowercased strings) and breaks ties
by case pattern with lowercase ordered before uppercase.  Note this is not
code-unit (case-sensitive lexicographic) string order: for example
"a@x.com" precedes "B@x.com" under this comparator while "B@x.com" precedes
"a@x.com" in code-unit order. -/
def localeLe (a b : String) : Bool :=
  if jsToLower a = jsToLower b then natListLe (caseKey a) (caseKey b)
  else charListLt (jsToLower a).data (jsToLower b).data

/-- The delete-mode values of the protocol client that `DELETE_MODE_MAP`
selects between. -/
inductive DeleteMode where
  | SoftDelete
  | MoveToDeletedItems
  | HardDelete
deriving DecidableEq, Repr

/-- `DELETE_MODE_MAP` (exchangeService.js lines 33-37) as a keyed lookup:
only the three listed lowercase keys are mapped. -/
def DELETE_MODE_MAP (key : String) : Option DeleteMode :=
  if key = "softdelete" then some DeleteMode.SoftDelete
  else if key = "movetodeleteditems" then some DeleteMode.MoveToDeletedItems
  else if key = "harddelete" then some DeleteMode.HardDelete
  else none

/-- The well-known folder identifiers that `FOLDER_MAP` can resolve to. -/
inductive WellKnownFolderName where
  | Inbox
  | JunkEmail
  | DeletedItems
  | SentItems
  | Drafts
  | ArchiveRoot
deriving DecidableEq, Repr

/-- `FOLDER_MAP` (exchangeService.js lines 39-46). -/
def FOLDER_MAP (key : String) : Option WellKnownFolderName :=
  if key = "inbox" then some WellKnownFolderName.Inbox
  else if key = "junkemail" then some WellKnownFolderName.JunkEmail
  else if key = "deleteditems" then some WellKnownFolderName.DeletedItems
  else if key = "sentitems" then some WellKnownFolderName.SentItems
  else if key = "drafts" then some WellKnownFolderName.Drafts
  else if key = "archive" then some WellKnownFolderName.ArchiveRoot
  else none

/-- `{ name: folder, id: resolved }` produced by `ensureFolder`. -/
structure FolderDescriptor where
  name : String
  id : WellKnownFolderName
deriving DecidableEq, Repr

/-- `ensureFolder` (exchangeService.js lines 161-172): lowercases the caller
supplied name, rejects unmapped names with a 400 error before any remote
call. -/
def ensureFolder (folder : String) : Except String FolderDescriptor :=
  match FOLDER_MAP (jsToLower folder) with
  | some resolved => Except.ok { name := folder, id := resolved }
  | none => Except.error ("Unsupported folder specified: " ++ folder)

/-- `resolveFolders` (exchangeService.js lines 174-177): a missing or empty
caller list falls back to the configured default folders. -/
def resolveFolders (defaultFolders : List String) (folders : Option (List String)) :
    Except String (List FolderDescriptor) :=
  let targetFolders :=
    match folders with
    | some fs => if fs.isEmpty then defaultFolders else fs
    | none => defaultFolders
  targetFolders.mapM ensureFolder

/-- Server-side contents of one mailbox: for each folder, the items matching
the compiled query in the order the server returns them. -/
def MailboxStore : Type := WellKnownFolderName → List Item

/-- The folder loop of `deleteForMailbox` (exchangeService.js lines 335-356):
scan each folder with the remaining capacity `limit - matches.length`,
append the transformed metadata to `matches` and the item ids to
`deletableIds`, and break once the limit is reached. -/
def deleteScanLoop (store : MailboxStore) (pageSize limit : Nat) (mailbox : String) :
    List FolderDescriptor → List MatchRecord → List Nat → List MatchRecord × List Nat
  | [], «matches», ids => («matches», ids)
  | folder :: rest, «matches», ids =>
    let items := (findItemsInFolder (store folder.id) pageSize
      ((limit : Int) - «matches».length)).1
    let matches2 := «matches» ++ items.map (buildTransform mailbox folder.name)
    let ids2 := ids ++ items.map Item.id
    if limit ≤ matches2.length then (matches2, ids2)
    else deleteScanLoop store pageSize limit mailbox rest matches2 ids2

/-- The folder loop of `collectMatchesForMailbox` (exchangeService.js lines
305-324), identical to the delete loop except that no item ids are kept. -/
def collectLoop (store : MailboxStore) (pageSize limit : Nat) (mailbox : String) :
    List FolderDescriptor → List MatchRecord → List MatchRecord
  | [], «matches» => «matches»
  | folder :: rest, «matches» =>
    let items := (findItemsInFolder (store folder.id) pageSize
      ((limit : Int) - «matches».length)).1
    let matches2 := «matches» ++ items.map (buildTransform mailbox folder.name)
    if limit ≤ matches2.length then matches2
    else collectLoop store pageSize limit mailbox rest matches2

/-- `collectMatchesForMailbox` (exchangeService.js lines 299-327). -/
def collectMatchesForMailbox (store : MailboxStore) (pageSize limit : Nat)
    (mailbox : String) (folders : List FolderDescriptor) : List MatchRecord :=
  collectLoop store pageSize limit mailbox folders []

/-- One `service.DeleteItems` invocation issued by `deleteForMailbox`. -/
structure DeleteCall where
  mailbox : String
  itemIds : List Nat
  mode : DeleteMode
deriving DecidableEq, Repr

/-- Return value of `deleteForMailbox`, extended with the effect log of bulk
delete calls it issued. -/
structure DeleteForMailboxResult where
  «matches» : List MatchRecord
  deleted : Nat
  deleteCalls : List DeleteCall
deriving DecidableEq, Repr

/-- `deleteForMailbox` (exchangeService.js lines 329-382): scan all target
folders collecting matches and deletable ids; when not simulating and at
least one id was collected, issue one bulk `DeleteItems` call with all
collected ids; report `deleted = 0` when simulating and the number of
collected ids otherwise. -/
def deleteForMailbox (store : MailboxStore) (pageSize limit : Nat) (mailbox : String)
    (folders : List FolderDescriptor) (deleteMode : DeleteMode) (simulate : Bool) :
    DeleteForMailboxResult :=
  let scanned := deleteScanLoop store pageSize limit mailbox folders [] []
  let deletableIds := scanned.2
  { «matches» := scanned.1
    deleted := if simulate then 0 else deletableIds.length
    deleteCalls :=
      if !simulate && !deletableIds.isEmpty then
        [{ mailbox := mailbox, itemIds := deletableIds, mode := deleteMode }]
      else [] }

/-- A searchable directory entry as produced by `getSearchableMailboxes`. -/
structure Mailbox where
  smtpAddress : String
  displayName : String
deriving DecidableEq, Repr

/-- How one mailbox's remote interactions behave during one request: either
every remote call of its task succeeds against the server-side folder
contents `store`, or some call in the task (session creation, a folder scan,
or the delete) throws an error with the given message, which the task's
`catch` turns into a failure record. -/
inductive MailboxBehavior where
  | ok (store : MailboxStore)
  | fail (message : String)

/-- One resolved mailbox together with its remote behavior for the request. -/
structure MailboxEnv where
  mailbox : Mailbox
  behavior : MailboxBehavior

/-- Per-mailbox failure record pushed by the task `catch` blocks. -/
structure MailboxFailure where
  mailbox : String
  displayName : String
  error : String
deriving DecidableEq, Repr

/-- Per-mailbox success record of the delete path (exchangeService.js lines
568-575). -/
structure DeleteOutcome where
  mailbox : String
  displayName : String
  totalMatches : Nat
  deleted : Nat
  folders : List String
  «matches» : List MatchRecord
deriving DecidableEq, Repr

/-- Per-mailbox success record of the search path (exchangeService.js lines
445-450). -/
structure SearchOutcome where
  mailbox : String
  displayName : String
  totalMatches : Nat
  «matches» : List MatchRecord
deriving DecidableEq, Repr

/-- A settled task is either a failure record or a success record; a task
with zero matches settles to `none` instead. -/
inductive TaskResult (ρ : Type) where
  | failure (f : MailboxFailure)
  | success (o : ρ)
deriving DecidableEq, Repr

/-- `[...new Set(xs)]`: deduplication preserving first-occurrence order. -/
def setDedup (xs : List String) : List String :=
  xs.foldl (fun acc x => if x ∈ acc then acc else acc ++ [x]) []

/-- The per-mailbox delete task body (exchangeService.js lines 551-589),
including its catch-all conversion of errors into failure records, paired
with the bulk delete calls the task issued. -/
def runDeleteTask (pageSize limit : Nat) (folders : List FolderDescriptor)
    (mode : DeleteMode) (simulate : Bool) (env : MailboxEnv) :
    Option (TaskResult DeleteOutcome) × List DeleteCall :=
  match env.behavior with
  | MailboxBehavior.fail msg =>
    (some (TaskResult.failure
      { mailbox := env.mailbox.smtpAddress
        displayName := env.mailbox.displayName
        error := msg }), [])
  | MailboxBehavior.ok store =>
    let r := deleteForMailbox store pageSize limit env.mailbox.smtpAddress folders
      mode simulate
    if r.«matches».isEmpty then (none, r.deleteCalls)
    else
      (some (TaskResult.success
        { mailbox := env.mailbox.smtpAddress
          displayName := env.mailbox.displayName
          totalMatches := r.«matches».length
          deleted := r.deleted
          folders := setDedup (r.«matches».map MatchRecord.folder)
          «matches» := r.«matches» }), r.deleteCalls)

/-- The per-mailbox search task body (exchangeService.js lines 430-464). -/
def runSearchTask (pageSize limit : Nat) (folders : List FolderDescriptor)
    (env : MailboxEnv) : Option (TaskResult SearchOutcome) :=
  match env.behavior with
  | MailboxBehavior.fail msg =>
    some (TaskResult.failure
      { mailbox := env.mailbox.smtpAddress
        displayName := env.mailbox.displayName
        error := msg })
  | MailboxBehavior.ok store =>
    let «matches» := collectMatchesForMailbox store pageSize limit
      env.mailbox.smtpAddress folders
    if «matches».isEmpty then none
    else
      some (TaskResult.success
        { mailbox := env.mailbox.smtpAddress
          displayName := env.mailbox.displayName
          totalMatches := «matches».length
          «matches» := «matches» })

/-- The aggregation `forEach` of `searchMessages`/`deleteMessages`: `null`
results are dropped, error results go to `failures`, the rest to the result
list, preserving task order.  (The source accumulates `totalDeleted` in the
same pass; the model takes the sum over the collected results, which adds the
same values in the same order.) -/
def aggregateOutcomes {ρ : Type} : List (Option (TaskResult ρ)) → List ρ × List MailboxFailure
  | [] => ([], [])
  | none :: rest => aggregateOutcomes rest
  | some (TaskResult.failure f) :: rest =>
    let r := aggregateOutcomes rest
    (r.1, f :: r.2)
  | some (TaskResult.success o) :: rest =>
    let r := aggregateOutcomes rest
    (o :: r.1, r.2)

/-- `results.sort((a, b) => a.mailbox.localeCompare(b.mailbox))`:
`Array.prototype.sort` is a stable ascending sort with respect to the
comparator, modelled by insertion sort. -/
def sortByMailbox {ρ : Type} (mailboxOf : ρ → String) (results : List ρ) : List ρ :=
  List.insertionSort (fun a b => localeLe (mailboxOf a) (mailboxOf b) = true) results

/-- The environment-derived service configuration fields the request
functions read. -/
structure ServiceConfig where
  defaultFolders : List String
  maxPerMailbox : Nat
  pageSize : Nat
deriving DecidableEq, Repr

/-- JS `value || fallback` for an optional numeric field: absent and 0 are
falsy and select the fallback. -/
def jsOrNat (value : Option Nat) (fallback : Nat) : Nat :=
  match value with
  | some n => if n = 0 then fallback else n
  | none => fallback

/-- `DEFAULT_QUERY` (queryBuilder.js line 1). -/
def DEFAULT_QUERY : String := "kind:email"

/-- `escapeValue` (queryBuilder.js line 3): escape double quotes. -/
def escapeValue (value : String) : String :=
  String.mk ((value.data.map
    (fun c => if c = '"' then ['\\', '"'] else [c])).flatten)

/-- `toDatePart` (queryBuilder.js lines 5-12).  Falsy (absent or empty)
values yield none.  The runtime's `Date` parsing and ISO reformatting are
abstracted: the model takes the field as the already-extracted `YYYY-MM-DD`
date part (the routing layer has validated it as an ISO date before it
reaches the query builder), and an unparseable value is modelled as absent. -/
def toDatePart (value : Option String) : Option String :=
  match value with
  | none => none
  | some s => if s.isEmpty then none else some s

/-- The filter subset `buildAqsQuery` destructures. -/
structure AqsFilter where
  sender : Option String := none
  subject : Option String := none
  body : Option String := none
  keywords : Option (List String) := none
  receivedFrom : Option String := none
  receivedTo : Option String := none
  hasAttachments : Option Bool := none
  importance : Option String := none
deriving DecidableEq, Repr

/-- `buildAqsQuery` (queryBuilder.js lines 14-67), with each JS truthiness
test (`if (sender)` etc., which skips absent and empty-string values) and
each `clauses.push` translated in source order. -/
def buildAqsQuery (f : AqsFilter) : String :=
  let clauses : List String := []
  let clauses := clauses ++
    (match f.sender with
     | some s => if s.isEmpty then [] else ["from:\"" ++ escapeValue s ++ "\""]
     | none => [])
  let clauses := clauses ++
    (match f.subject with
     | some s => if s.isEmpty then [] else ["subject:\"" ++ escapeValue s ++ "\""]
     | none => [])
  let clauses := clauses ++
    (match f.body with
     | some s => if s.isEmpty then [] else ["body:\"" ++ escapeValue s ++ "\""]
     | none => [])
  let clauses := clauses ++
    (match f.keywords with
     | some ws =>
       if ws.isEmpty then []
       else
         let keywordString := " AND ".intercalate
           ((ws.filter (fun w => !w.isEmpty)).map
             (fun w => "\"" ++ escapeValue w ++ "\""))
         if keywordString.isEmpty then [] else [keywordString]
     | none => [])
  let clauses := clauses ++
    (match toDatePart f.receivedFrom with
     | some d => ["received>=" ++ d]
     | none => [])
  let clauses := clauses ++
    (match toDatePart f.receivedTo with
     | some d => ["received<=" ++ d]
     | none => [])
  let clauses := clauses ++
    (match f.hasAttachments with
     | some b => ["hasattachment:" ++ toString b]
     | none => [])
  let clauses := clauses ++
    (match f.importance with
     | some s => if s.isEmpty then [] else ["importance:" ++ jsToLower s]
     | none => [])
  if clauses.isEmpty then DEFAULT_QUERY else " AND ".intercalate clauses

/-- The validated body of a delete request as `deleteMessages` destructures
it (exchangeService.js lines 499-509), with the JS parameter defaults. -/
structure DeleteFilters where
  sender : Option String := none
  subject : Option String := none
  body : Option String := none
  receivedFrom : Option String := none
  receivedTo : Option String := none
  folders : Option (List String) := none
  maxPerMailbox : Option Nat := none
  deleteMode : String := "softDelete"
  simulate : Bool := true
deriving DecidableEq, Repr

/-- The validated body of a search request as `searchMessages` destructures
it (exchangeService.js lines 385-396). -/
structure SearchFilters where
  sender : Option String := none
  subject : Option String := none
  body : Option String := none
  keywords : Option (List String) := none
  receivedFrom : Option String := none
  receivedTo : Option String := none
  hasAttachments : Option Bool := none
  importance : Option String := none
  folders : Option (List String) := none
  maxPerMailbox : Option Nat := none
deriving DecidableEq, Repr

/-- `summary` of a delete response (exchangeService.js lines 614-621). -/
structure DeleteSummary where
  totalMailboxesScanned : Nat
  mailboxesWithMatches : Nat
  totalMatches : Nat
  totalDeleted : Nat
  mode : String
  simulate : Bool
deriving DecidableEq, Repr, Inhabited

/-- The aggregate delete response (exchangeService.js lines 613-625). -/
structure DeleteResponse where
  summary : DeleteSummary
  query : Option String
  results : List DeleteOutcome
  failures : List MailboxFailure
deriving DecidableEq, Repr, Inhabited

/-- A delete response together with the effect log of every bulk delete call
issued while producing it. -/
structure DeleteRun where
  response : DeleteResponse
  deleteCalls : List DeleteCall
deriving DecidableEq, Repr, Inhabited

/-- `summary` of a search response (exchangeService.js lines 487-491). -/
structure SearchSummary where
  totalMailboxesScanned : Nat
  mailboxesWithMatches : Nat
  totalMessages : Nat
deriving DecidableEq, Repr, Inhabited

/-- The aggregate search response (exchangeService.js lines 486-495). -/
structure SearchResponse where
  summary : SearchSummary
  query : Option String
  results : List SearchOutcome
  failures : List MailboxFailure
deriving DecidableEq, Repr, Inhabited

/-- `limit` of the delete path (exchangeService.js line 527): the caller
value (absent and 0 are falsy) clamped to 1..2000. -/
def deleteLimit (cfg : ServiceConfig) (filters : DeleteFilters) : Nat :=
  max 1 (min (jsOrNat filters.maxPerMailbox cfg.maxPerMailbox) 2000)

/-- `effectiveModeKey` of the delete path (exchangeService.js lines 528-530):
the lowercased caller mode when mapped, "softdelete" otherwise. -/
def effectiveModeKeyOf (filters : DeleteFilters) : String :=
  if (DELETE_MODE_MAP (jsToLower filters.deleteMode)).isSome then
    jsToLower filters.deleteMode
  else "softdelete"

/-- The body of `deleteMessages` after folder resolution has succeeded. -/
def deleteMessagesResolved (cfg : ServiceConfig) (envs : List MailboxEnv)
    (filters : DeleteFilters) (resolvedFolders : List FolderDescriptor) : DeleteRun :=
  let limit := deleteLimit cfg filters
  let modeKey := jsToLower filters.deleteMode
  let mode := (DELETE_MODE_MAP modeKey).getD DeleteMode.SoftDelete
  let effectiveModeKey := effectiveModeKeyOf filters
  if envs.isEmpty then
    {
      response := {
        summary := {
          totalMailboxesScanned := 0
          mailboxesWithMatches := 0
          totalMatches := 0
          totalDeleted := 0
          mode := effectiveModeKey
          simulate := filters.simulate }
        query := none
        results := []
        failures := [] }
      deleteCalls := [] }
  else
  let query := buildAqsQuery {
    sender := filters.sender
    subject := filters.subject
    body := filters.body
    receivedFrom := filters.receivedFrom
    receivedTo := filters.receivedTo }
  let taskResults := envs.map
    (runDeleteTask cfg.pageSize limit resolvedFolders mode filters.simulate)
  let agg := aggregateOutcomes (taskResults.map Prod.fst)
  let mailboxResults := agg.1
  let totalDeleted := (mailboxResults.map DeleteOutcome.deleted).sum
  let totalMatches := (mailboxResults.map DeleteOutcome.totalMatches).sum
  {
    response := {
      summary := {
        totalMailboxesScanned := envs.length
        mailboxesWithMatches := mailboxResults.length
        totalMatches := totalMatches
        totalDeleted := totalDeleted
        mode := effectiveModeKey
        simulate := filters.simulate }
      query := some query
      results := sortByMailbox DeleteOutcome.mailbox mailboxResults
      failures := agg.2 }
    deleteCalls := (taskResults.map Prod.snd).flatten }

/-- `deleteMessages` (exchangeService.js lines 498-626): folder resolution
may reject the request with a 400 error before any task runs; otherwise the
resolved body runs. -/
def deleteMessages (cfg : ServiceConfig) (envs : List MailboxEnv)
    (filters : DeleteFilters) : Except String DeleteRun :=
  match resolveFolders cfg.defaultFolders filters.folders with
  | Except.ok resolvedFolders =>
    Except.ok (deleteMessagesResolved cfg envs filters resolvedFolders)
  | Except.error e => Except.error e

/-- `limit` of the search path (exchangeService.js line 412): the caller
value (absent and 0 are falsy) clamped to 1..1000. -/
def searchLimit (cfg : ServiceConfig) (filters : SearchFilters) : Nat :=
  max 1 (min (jsOrNat filters.maxPerMailbox cfg.maxPerMailbox) 1000)

/-- The body of `searchMessages` after folder resolution has succeeded. -/
def searchMessagesResolved (cfg : ServiceConfig) (envs : List MailboxEnv)
    (filters : SearchFilters) (resolvedFolders : List FolderDescriptor) :
    SearchResponse :=
  let limit := searchLimit cfg filters
  if envs.isEmpty then
    {
      summary := {
        totalMailboxesScanned := 0
        mailboxesWithMatches := 0
        totalMessages := 0 }
      query := none
      results := []
      failures := [] }
  else
  let query := buildAqsQuery {
    sender := filters.sender
    subject := filters.subject
    body := filters.body
    keywords := filters.keywords
    receivedFrom := filters.receivedFrom
    receivedTo := filters.receivedTo
    hasAttachments := filters.hasAttachments
    importance := filters.importance }
  let taskResults := envs.map (runSearchTask cfg.pageSize limit resolvedFolders)
  let agg := aggregateOutcomes taskResults
  let mailboxResults := agg.1
  let totalMessages := (mailboxResults.map SearchOutcome.totalMatches).sum
  {
    summary := {
      totalMailboxesScanned := envs.length
      mailboxesWithMatches := mailboxResults.length
      totalMessages := totalMessages }
    query := some query
    results := sortByMailbox SearchOutcome.mailbox mailboxResults
    failures := agg.2 }

/-- `searchMessages` (exchangeService.js lines 384-496), structured like
`deleteMessages` but collecting matches only. -/
def searchMessages (cfg : ServiceConfig) (envs : List MailboxEnv)
    (filters : SearchFilters) : Except String SearchResponse :=
  match resolveFolders cfg.defaultFolders filters.folders with
  | Except.ok resolvedFolders =>
    Except.ok (searchMessagesResolved cfg envs filters resolvedFolders)
  | Except.error e => Except.error e

/-- Joi presence of an optional string field combined with JS truthiness of
the validated value: a field passes when present and non-empty
(`Joi.string()` rejects the empty string, and the custom rule tests
`Boolean(value.sender || value.subject)`).  The email-format and length
checks are orthogonal to the primary-filter dimension and are abstracted. -/
def present (v : Option String) : Bool :=
  match v with
  | some s => !s.isEmpty
  | none => false

/-- `hasPrimaryFilter` of the custom rule in `filterBaseSchema`
(exchangeRoutes.js lines 27-34). -/
def hasPrimaryFilter (sender subject : Option String) : Bool :=
  present sender || present subject

/-- Acceptance of a search body along the primary-filter dimension:
`filterBaseSchema` only imposes the custom rule. -/
def searchPrimaryAccepts (sender subject : Option String) : Bool :=
  hasPrimaryFilter sender subject

/-- Acceptance of a delete body along the primary-filter dimension:
`deleteSchema` (exchangeRoutes.js lines 50-54) forks `sender` to required on
top of the base schema's custom rule, so validation passes only when a
sender is supplied and the custom rule holds. -/
def deletePrimaryAccepts (sender subject : Option String) : Bool :=
  present sender && hasPrimaryFilter sender subject

/-- The live handle of a spawned purge process as the routes observe it:
`exitCode` models `child.exitCode` (null until the process exits) and
`killOk` the Boolean result of `child.kill()` (false also covers the throwing
case, which the route catches leaving `killed = false`). -/
structure ChildHandle where
  exitCode : Option Int
  killOk : Bool
deriving DecidableEq, Repr

/-- The purge context registered in `activePurges` (exchangeRoutes.js lines
298-313): the process handle (none once cleared), the cancellation flag and
the first-writer-wins cancellation reason. -/
structure PurgeContext where
  requestId : String
  child : Option ChildHandle
  cancelled : Bool
  cancelReason : Option String
deriving DecidableEq, Repr

/-- The `activePurges` map, as an association list keyed by request id. -/
def Registry : Type := List (String × PurgeContext)

/-- `activePurges.get(id)`. -/
def lookupReg (reg : Registry) (id : String) : Option PurgeContext :=
  (List.find? (fun p => p.1 = id) reg).map Prod.snd

/-- `activePurges.delete(id)`. -/
def eraseReg (reg : Registry) (id : String) : Registry :=
  List.filter (fun p => !(p.1 = id : Bool)) reg

/-- Replace the entry for `id` (mutation of the shared context object). -/
def setReg (reg : Registry) (id : String) (ctx : PurgeContext) : Registry :=
  List.map (fun p => if p.1 = id then (id, ctx) else p) reg

/-- Status strings of the cancel endpoint's responses. -/
inductive CancelStatus where
  | notFound
  | alreadyFinished
  | cancelling
  | pending
deriving DecidableEq, Repr

/-- HTTP status and body status of one cancel response. -/
structure CancelResponse where
  httpStatus : Nat
  status : CancelStatus
deriving DecidableEq, Repr

/-- The cancel endpoint body (exchangeRoutes.js lines 149-191): look the id
up; missing entry (or an entry whose process handle was already cleared)
gives 404 not-found; an entry whose process has exited is purged with 409
already-finished; otherwise the cancellation flag and first-writer-wins
reason are set on the shared context and termination is attempted, reporting
"cancelling" when the kill signal was accepted and "pending" otherwise. -/
def cancelPurge (reg : Registry) (targetId : String) : Registry × CancelResponse :=
  match lookupReg reg targetId with
  | none => (reg, { httpStatus := 404, status := CancelStatus.notFound })
  | some ctx =>
    match ctx.child with
    | none => (reg, { httpStatus := 404, status := CancelStatus.notFound })
    | some child =>
      if child.exitCode ≠ none then
        (eraseReg reg targetId, { httpStatus := 409, status := CancelStatus.alreadyFinished })
      else
        let ctx2 := { ctx with
          cancelled := true
          cancelReason := some (ctx.cancelReason.getD "user_requested") }
        (setReg reg targetId ctx2,
          { httpStatus := 200
            status := if child.killOk then CancelStatus.cancelling else CancelStatus.pending })

/-- Terminal status classification of the close handler (exchangeRoutes.js
lines 401-408). -/
inductive PurgeStatus where
  | completed
  | simulated
  | failed
  | cancelled
deriving DecidableEq, Repr

/-- The audit record assembled by the close handler (exchangeRoutes.js lines
423-448).  Timestamps, durations, the request payload echo and the
affected-mailbox text mining are abstracted; the fields the lifecycle
properties inspect are kept. -/
structure AuditLogEntry where
  requestId : String
  simulate : Bool
  exitCode : Option Int
  exitSignal : Option String
  status : PurgeStatus
  cancelled : Bool
  cancelReason : Option String
deriving DecidableEq, Repr

/-- `classifyStatus` of the close handler: cancelled wins, then a zero exit
code is simulated/completed depending on the dry-run flag, anything else
(including a null exit code after a signal kill) is failed. -/
def classifyStatus (wasCancelled : Bool) (exitCode : Option Int) (simulate : Bool) :
    PurgeStatus :=
  if wasCancelled then PurgeStatus.cancelled
  else if exitCode = some 0 then
    (if simulate then PurgeStatus.simulated else PurgeStatus.completed)
  else PurgeStatus.failed

/-- Events one purge operation can observe after it is registered: a cancel
request for its id, a spawn failure (the child's `error` event), or process
end (the `close` event with exit code and signal).  Node (version 18 and
later, the runtime this backend requires) guarantees that `close` always
emits exactly once, after `error` when the child failed to spawn, so a
complete lifecycle is a sequence of cancel and spawn-error events followed
by one final close event. -/
inductive PurgeEvent where
  | cancelRequest
  | spawnError
  | close (code : Option Int) (signal : Option String)
deriving DecidableEq, Repr

/-- Whether an event is the (single, final) close event of a lifecycle. -/
def isClose : PurgeEvent → Bool
  | PurgeEvent.close _ _ => true
  | _ => false

/-- State carried across one operation's lifecycle: the shared registry and
the audit entries persisted so far (the append-only log store collaborator
is assumed to accept every append). -/
structure PurgeState where
  registry : Registry
  audits : List AuditLogEntry

/-- The `child.on("error")` handler (exchangeRoutes.js lines 355-365): the
registry entry is deleted and an error response is sent.  This handler
itself assembles no audit entry; the audit entry of a failed spawn is
written by the close handler when the runtime's guaranteed `close` event
follows. -/
def onSpawnError (st : PurgeState) (id : String) : PurgeState :=
  { registry := eraseReg st.registry id
    audits := st.audits }

/-- The `child.on("close")` handler (exchangeRoutes.js lines 367-484): read
the shared context (its cancellation state may have been updated by cancel
requests), deregister, classify the terminal status and append exactly one
audit entry. -/
def onClose (st : PurgeState) (id : String) (simulate : Bool) (code : Option Int)
    (signal : Option String) : PurgeState :=
  let ctx := (lookupReg st.registry id).getD
    { requestId := id, child := none, cancelled := false, cancelReason := none }
  { registry := eraseReg st.registry id
    audits := st.audits ++ [{
      requestId := id
      simulate := simulate
      exitCode := code
      exitSignal := signal
      status := classifyStatus ctx.cancelled code simulate
      cancelled := ctx.cancelled
      cancelReason := ctx.cancelReason }] }

/-- One lifecycle step of a registered operation. -/
def purgeStep (id : String) (simulate : Bool) (st : PurgeState) (ev : PurgeEvent) :
    PurgeState :=
  match ev with
  | PurgeEvent.cancelRequest => { st with registry := (cancelPurge st.registry id).1 }
  | PurgeEvent.spawnError => onSpawnError st id
  | PurgeEvent.close code signal => onClose st id simulate code signal

/-- The state right after `activePurges.set(req.requestId, purgeContext)`
(exchangeRoutes.js line 313): a live child handle, no cancellation, no audit
entries yet.  `killOk` abstracts whether the OS will accept a termination
signal for this process. -/
def initialPurgeState (id : String) (killOk : Bool) : PurgeState :=
  { registry := [(id, {
      requestId := id
      child := some { exitCode := none, killOk := killOk }
      cancelled := false
      cancelReason := none })]
    audits := [] }

/-- Run one operation's lifecycle from registration through a list of
events.  A complete lifecycle ends with the single guaranteed close event
(see `PurgeEvent`); the events before it are cancel requests and, when the
spawn failed, the error event. -/
def runPurge (id : String) (simulate : Bool) (killOk : Bool)
    (events : List PurgeEvent) : PurgeState :=
  events.foldl (purgeStep id simulate) (initialPurgeState id killOk)

/-- The resolved delete mode (exchangeService.js line 529): unmapped keys
fall back to soft delete. -/
def deleteModeOf (filters : DeleteFilters) : DeleteMode :=
  (DELETE_MODE_MAP (jsToLower filters.deleteMode)).getD DeleteMode.SoftDelete

/-- The per-mailbox task list of one delete request. -/
def deleteTasks (cfg : ServiceConfig) (envs : List MailboxEnv)
    (filters : DeleteFilters) (resolvedFolders : List FolderDescriptor) :
    List (Option (TaskResult DeleteOutcome) × List DeleteCall) :=
  envs.map (runDeleteTask cfg.pageSize (deleteLimit cfg filters) resolvedFolders
    (deleteModeOf filters) filters.simulate)

/-- The aggregated (unsorted) results and failures of one delete request. -/
def deleteAgg (cfg : ServiceConfig) (envs : List MailboxEnv)
    (filters : DeleteFilters) (resolvedFolders : List FolderDescriptor) :
    List DeleteOutcome × List MailboxFailure :=
  aggregateOutcomes ((deleteTasks cfg envs filters resolvedFolders).map Prod.fst)

/-- The per-mailbox task list of one search request. -/
def searchTasks (cfg : ServiceConfig) (envs : List MailboxEnv)
    (filters : SearchFilters) (resolvedFolders : List FolderDescriptor) :
    List (Option (TaskResult SearchOutcome)) :=
  envs.map (runSearchTask cfg.pageSize (searchLimit cfg filters) resolvedFolders)

/-- The aggregated (unsorted) results and failures of one search request. -/
def searchAgg (cfg : ServiceConfig) (envs : List MailboxEnv)
    (filters : SearchFilters) (resolvedFolders : List FolderDescriptor) :
    List SearchOutcome × List MailboxFailure :=
  aggregateOutcomes (searchTasks cfg envs filters resolvedFolders)

/-- The clause sequence the specification prescribes for the Query Compiler,
in its fixed order: sender, subject, body, keywords (each keyword
AND-joined), received-after, received-before, attachment flag, importance —
each filter field contributing at most one clause.  Spec-side definition for
the refinement statement about `buildAqsQuery`. -/
def specClauses (f : AqsFilter) : List String :=
  (match f.sender with
   | some s => if s.isEmpty then [] else ["from:\"" ++ escapeValue s ++ "\""]
   | none => [])
  ++ (match f.subject with
      | some s => if s.isEmpty then [] else ["subject:\"" ++ escapeValue s ++ "\""]
      | none => [])
  ++ (match f.body with
      | some s => if s.isEmpty then [] else ["body:\"" ++ escapeValue s ++ "\""]
      | none => [])
  ++ (match f.keywords with
      | some ws =>
        if ws.isEmpty then []
        else
          let keywordString := " AND ".intercalate
            ((ws.filter (fun w => !w.isEmpty)).map
              (fun w => "\"" ++ escapeValue w ++ "\""))
          if keywordString.isEmpty then [] else [keywordString]
      | none => [])
  ++ (match toDatePart f.receivedFrom with
      | some d => ["received>=" ++ d]
      | none => [])
  ++ (match toDatePart f.receivedTo with
      | some d => ["received<=" ++ d]
      | none => [])
  ++ (match f.hasAttachments with
      | some b => ["hasattachment:" ++ toString b]
      | none => [])
  ++ (match f.importance with
      | some s => if s.isEmpty then [] else ["importance:" ++ jsToLower s]
      | none => [])

/-- Service configuration used by the concrete evaluation fixtures: the
environment defaults of exchangeService.js lines 72-75. -/
def fixtureConfig : ServiceConfig :=
  { defaultFolders := ["Inbox", "JunkEmail"], maxPerMailbox := 200, pageSize := 50 }

/-- Two searchable mailboxes whose addresses differ only in the case of the
first letter, each holding one matching item per folder. -/
def caseMixedEnvs : List MailboxEnv :=
  [ { mailbox := { smtpAddress := "B@x.com", displayName := "Mailbox B" }
      behavior := MailboxBehavior.ok (fun _ => [{ id := 1 }]) }
  , { mailbox := { smtpAddress := "a@x.com", displayName := "Mailbox a" }
      behavior := MailboxBehavior.ok (fun _ => [{ id := 2 }]) } ]

/-- A delete request body with a sender filter, in simulate mode. -/
def caseMixedFilters : DeleteFilters :=
  { sender := some "evil@x.com" }

/-- The delete run the code produces on the case-mixed directory. -/
def caseMixedRun : DeleteRun :=
  match deleteMessages fixtureConfig caseMixedEnvs caseMixedFilters with
  | Except.ok r => r
  | Except.error _ => default

/-- A delete request body identical to `caseMixedFilters` but with the
simulate flag off. -/
def liveDeleteFilters : DeleteFilters :=
  { sender := some "evil@x.com", simulate := false }

/-- The delete run the code produces on the case-mixed directory with
simulation off. -/
def liveDeleteRun : DeleteRun :=
  match deleteMessages fixtureConfig caseMixedEnvs liveDeleteFilters with
  | Except.ok r => r
  | Except.error _ => default

/-- A mailbox whose task throws (session creation fails). -/
def failingEnv : MailboxEnv :=
  { mailbox := { smtpAddress := "c@x.com", displayName := "Mailbox c" }
    behavior := MailboxBehavior.fail "Failed to search mailbox folder" }

/-- A mailbox whose folders hold no matching items. -/
def emptyEnv : MailboxEnv :=
  { mailbox := { smtpAddress := "d@x.com", displayName := "Mailbox d" }
    behavior := MailboxBehavior.ok (fun _ => []) }

/-- A four-mailbox directory: two with matches, one whose task fails, one
with zero matches. -/
def directoryEnvs : List MailboxEnv :=
  caseMixedEnvs ++ [failingEnv, emptyEnv]

/-- A search request body with a sender filter. -/
def searchFixtureFilters : SearchFilters :=
  { sender := some "evil@x.com" }

/-- The delete run the code produces on the four-mailbox directory. -/
def directoryDeleteRun : DeleteRun :=
  match deleteMessages fixtureConfig directoryEnvs liveDeleteFilters with
  | Except.ok r => r
  | Except.error _ => default

/-- The search response the code produces on the four-mailbox directory. -/
def directorySearchResponse : SearchResponse :=
  match searchMessages fixtureConfig directoryEnvs searchFixtureFilters with
  | Except.ok r => r
  | Except.error _ => default

/-- The resolved default folders of the fixture configuration. -/
def fixtureFolders : List FolderDescriptor :=
  [ { name := "Inbox", id := WellKnownFolderName.Inbox }
  , { name := "JunkEmail", id := WellKnownFolderName.JunkEmail } ]

/-- A registered purge context with a live child process. -/
def livePurgeCtx : PurgeContext :=
  { requestId := "op-1"
    child := some { exitCode := none, killOk := true }
    cancelled := false
    cancelReason := none }

/-- A registered purge context whose child process has already exited. -/
def exitedPurgeCtx : PurgeContext :=
  { requestId := "op-2"
    child := some { exitCode := some 0, killOk := true }
    cancelled := false
    cancelReason := none }

/-! ## Helper lemmas -/

theorem scanGo_eq (folderItems : List Item) (pageSize limit : Nat) (hps : 1 ≤ pageSize) :
    ∀ fuel offset acc calls, acc.length < limit → offset = acc.length →
      acc = folderItems.take offset → folderItems.length - offset < fuel →
      (scanGo folderItems pageSize limit fuel offset acc calls).1 =
        folderItems.take limit := by
  intro fuel
  induction fuel with
  | zero => intro offset acc calls _ _ _ hfuel; omega
  | succ fuel ih =>
    intro offset acc calls hacc hoff htake hfuel
    simp only [scanGo, FindItems]
    have hcount : min (limit - acc.length) pageSize ≤ limit - acc.length :=
      Nat.min_le_left _ _
    have hcount1 : 1 ≤ min (limit - acc.length) pageSize := by omega
    set count := min (limit - acc.length) pageSize with hcountdef
    have htt : ((folderItems.drop offset).take count).take (limit - acc.length)
        = (folderItems.drop offset).take count := by
      rw [List.take_take]
      congr 1
      omega
    have hacc2 : acc ++ ((folderItems.drop offset).take count).take (limit - acc.length)
        = folderItems.take (offset + count) := by
      rw [htt, List.take_add, htake, hoff]
    have hlen2 : (acc ++ ((folderItems.drop offset).take count).take
        (limit - acc.length)).length = min (offset + count) folderItems.length := by
      rw [hacc2, List.length_take]
    by_cases hmore : offset + count < folderItems.length
    · by_cases hlt : min (offset + count) folderItems.length < limit
      · rw [if_pos]
        · apply ih (offset + count) _ (calls + 1)
          · rw [hlen2]; exact hlt
          · rw [hlen2]; omega
          · exact hacc2
          · omega
        · constructor
          · simp [hmore]
          · rw [hlen2]; exact hlt
      · rw [if_neg]
        · have hminlim : limit ⊓ (offset + count) = limit := by omega
          rw [hacc2, List.take_take, hminlim]
        · intro h
          exact hlt (hlen2 ▸ h.2)
    · rw [if_neg]
      · rw [hacc2]
        have : folderItems.length ≤ offset + count := by omega
        rw [List.take_of_length_le this]
      · intro h
        have := h.1
        simp at this
        omega

/-- For a positive page size the scanner returns exactly the first
`limit.toNat` items of the folder (in particular at most `limit` items), and
a non-positive limit yields an empty result with zero remote calls. -/
theorem findItemsInFolder_take (folderItems : List Item) (pageSize : Nat) (limit : Int)
    (hps : 1 ≤ pageSize) :
    (findItemsInFolder folderItems pageSize limit).1 = folderItems.take limit.toNat := by
  unfold findItemsInFolder
  split
  · rename_i h
    have : limit.toNat = 0 := by omega
    rw [this, List.take_zero]
  · rename_i h
    apply scanGo_eq folderItems pageSize limit.toNat hps
    · simp only [List.length_nil]
      omega
    · rfl
    · rfl
    · omega



theorem deleteScanLoop_lengths (store : MailboxStore) (pageSize limit : Nat)
    (mailbox : String) :
    ∀ folders ms ids, List.length ms = List.length ids →
      (deleteScanLoop store pageSize limit mailbox folders ms ids).1.length
        = (deleteScanLoop store pageSize limit mailbox folders ms ids).2.length := by
  intro folders
  induction folders with
  | nil => intro ms ids h; simpa [deleteScanLoop] using h
  | cons f rest ih =>
    intro ms ids h
    simp only [deleteScanLoop]
    split
    · simp [h]
    · apply ih
      simp [h]

theorem mem_aggregateOutcomes_results {ρ : Type} (l : List (Option (TaskResult ρ)))
    (o : ρ) :
    o ∈ (aggregateOutcomes l).1 ↔ some (TaskResult.success o) ∈ l := by
  induction l with
  | nil => simp [aggregateOutcomes]
  | cons hd tl ih =>
    match hd with
    | none => simp [aggregateOutcomes, ih]
    | some (TaskResult.failure f) => simp [aggregateOutcomes, ih]
    | some (TaskResult.success o2) => simp [aggregateOutcomes, ih]

theorem mem_aggregateOutcomes_failures {ρ : Type} (l : List (Option (TaskResult ρ)))
    (f : MailboxFailure) :
    f ∈ (aggregateOutcomes l).2 ↔ some (TaskResult.failure f) ∈ l := by
  induction l with
  | nil => simp [aggregateOutcomes]
  | cons hd tl ih =>
    match hd with
    | none => simp [aggregateOutcomes, ih]
    | some (TaskResult.failure f2) => simp [aggregateOutcomes, ih]
    | some (TaskResult.success o2) => simp [aggregateOutcomes, ih]

theorem runDeleteTask_of_fail (pageSize limit : Nat) (folders : List FolderDescriptor)
    (mode : DeleteMode) (simulate : Bool) (env : MailboxEnv) (msg : String)
    (h : env.behavior = MailboxBehavior.fail msg) :
    runDeleteTask pageSize limit folders mode simulate env =
      (some (TaskResult.failure
        { mailbox := env.mailbox.smtpAddress
          displayName := env.mailbox.displayName
          error := msg }), []) := by
  unfold runDeleteTask
  rw [h]

theorem runDeleteTask_of_ok (pageSize limit : Nat) (folders : List FolderDescriptor)
    (mode : DeleteMode) (simulate : Bool) (env : MailboxEnv) (store : MailboxStore)
    (h : env.behavior = MailboxBehavior.ok store) :
    (runDeleteTask pageSize limit folders mode simulate env).1 =
      (if (deleteForMailbox store pageSize limit env.mailbox.smtpAddress folders
            mode simulate).«matches».isEmpty then none
       else some (TaskResult.success
        { mailbox := env.mailbox.smtpAddress
          displayName := env.mailbox.displayName
          totalMatches := (deleteForMailbox store pageSize limit
            env.mailbox.smtpAddress folders mode simulate).«matches».length
          deleted := (deleteForMailbox store pageSize limit env.mailbox.smtpAddress
            folders mode simulate).deleted
          folders := setDedup ((deleteForMailbox store pageSize limit
            env.mailbox.smtpAddress folders mode simulate).«matches».map
            MatchRecord.folder)
          «matches» := (deleteForMailbox store pageSize limit
            env.mailbox.smtpAddress folders mode simulate).«matches» })) := by
  unfold runDeleteTask
  rw [h]
  dsimp only
  by_cases hc : (deleteForMailbox store pageSize limit env.mailbox.smtpAddress
      folders mode simulate).«matches».isEmpty
  · simp [hc]
  · simp [hc]

theorem runDeleteTask_success_elim (pageSize limit : Nat)
    (folders : List FolderDescriptor) (mode : DeleteMode) (simulate : Bool)
    (env : MailboxEnv) (o : DeleteOutcome)
    (h : (runDeleteTask pageSize limit folders mode simulate env).1 =
      some (TaskResult.success o)) :
    ∃ store, env.behavior = MailboxBehavior.ok store ∧
      (deleteForMailbox store pageSize limit env.mailbox.smtpAddress folders
        mode simulate).«matches» ≠ [] ∧
      o = { mailbox := env.mailbox.smtpAddress
            displayName := env.mailbox.displayName
            totalMatches := (deleteForMailbox store pageSize limit
              env.mailbox.smtpAddress folders mode simulate).«matches».length
            deleted := (deleteForMailbox store pageSize limit
              env.mailbox.smtpAddress folders mode simulate).deleted
            folders := setDedup ((deleteForMailbox store pageSize limit
              env.mailbox.smtpAddress folders mode simulate).«matches».map
              MatchRecord.folder)
            «matches» := (deleteForMailbox store pageSize limit
              env.mailbox.smtpAddress folders mode simulate).«matches» } := by
  cases hb : env.behavior with
  | fail msg =>
    rw [runDeleteTask_of_fail pageSize limit folders mode simulate env msg hb] at h
    simp at h
  | ok store =>
    refine ⟨store, rfl, ?_⟩
    rw [runDeleteTask_of_ok pageSize limit folders mode simulate env store hb] at h
    by_cases he : (deleteForMailbox store pageSize limit env.mailbox.smtpAddress
        folders mode simulate).«matches».isEmpty
    · rw [if_pos he] at h
      exact absurd h (by simp)
    · rw [if_neg he] at h
      simp only [Option.some.injEq, TaskResult.success.injEq] at h
      exact ⟨by simpa using he, h.symm⟩

theorem runDeleteTask_failure_elim (pageSize limit : Nat)
    (folders : List FolderDescriptor) (mode : DeleteMode) (simulate : Bool)
    (env : MailboxEnv) (fl : MailboxFailure)
    (h : (runDeleteTask pageSize limit folders mode simulate env).1 =
      some (TaskResult.failure fl)) :
    ∃ msg, env.behavior = MailboxBehavior.fail msg ∧
      fl = { mailbox := env.mailbox.smtpAddress
             displayName := env.mailbox.displayName
             error := msg } := by
  cases hb : env.behavior with
  | fail msg =>
    rw [runDeleteTask_of_fail pageSize limit folders mode simulate env msg hb] at h
    simp only [Option.some.injEq, TaskResult.failure.injEq] at h
    exact ⟨msg, rfl, h.symm⟩
  | ok store =>
    rw [runDeleteTask_of_ok pageSize limit folders mode simulate env store hb] at h
    split at h <;> simp at h

theorem runSearchTask_of_fail (pageSize limit : Nat) (folders : List FolderDescriptor)
    (env : MailboxEnv) (msg : String)
    (h : env.behavior = MailboxBehavior.fail msg) :
    runSearchTask pageSize limit folders env =
      some (TaskResult.failure
        { mailbox := env.mailbox.smtpAddress
          displayName := env.mailbox.displayName
          error := msg }) := by
  unfold runSearchTask
  rw [h]

theorem runSearchTask_of_ok (pageSize limit : Nat) (folders : List FolderDescriptor)
    (env : MailboxEnv) (store : MailboxStore)
    (h : env.behavior = MailboxBehavior.ok store) :
    runSearchTask pageSize limit folders env =
      (if (collectMatchesForMailbox store pageSize limit env.mailbox.smtpAddress
            folders).isEmpty then none
       else some (TaskResult.success
        { mailbox := env.mailbox.smtpAddress
          displayName := env.mailbox.displayName
          totalMatches := (collectMatchesForMailbox store pageSize limit
            env.mailbox.smtpAddress folders).length
          «matches» := collectMatchesForMailbox store pageSize limit
            env.mailbox.smtpAddress folders })) := by
  unfold runSearchTask
  rw [h]

theorem runSearchTask_success_elim (pageSize limit : Nat)
    (folders : List FolderDescriptor) (env : MailboxEnv) (o : SearchOutcome)
    (h : runSearchTask pageSize limit folders env = some (TaskResult.success o)) :
    ∃ store, env.behavior = MailboxBehavior.ok store ∧
      collectMatchesForMailbox store pageSize limit env.mailbox.smtpAddress
        folders ≠ [] ∧
      o = { mailbox := env.mailbox.smtpAddress
            displayName := env.mailbox.displayName
            totalMatches := (collectMatchesForMailbox store pageSize limit
              env.mailbox.smtpAddress folders).length
            «matches» := collectMatchesForMailbox store pageSize limit
              env.mailbox.smtpAddress folders } := by
  cases hb : env.behavior with
  | fail msg =>
    rw [runSearchTask_of_fail pageSize limit folders env msg hb] at h
    simp at h
  | ok store =>
    refine ⟨store, rfl, ?_⟩
    rw [runSearchTask_of_ok pageSize limit folders env store hb] at h
    by_cases he : (collectMatchesForMailbox store pageSize limit
        env.mailbox.smtpAddress folders).isEmpty
    · rw [if_pos he] at h
      exact absurd h (by simp)
    · rw [if_neg he] at h
      simp only [Option.some.injEq, TaskResult.success.injEq] at h
      exact ⟨by simpa using he, h.symm⟩

theorem runSearchTask_failure_elim (pageSize limit : Nat)
    (folders : List FolderDescriptor) (env : MailboxEnv) (fl : MailboxFailure)
    (h : runSearchTask pageSize limit folders env = some (TaskResult.failure fl)) :
    ∃ msg, env.behavior = MailboxBehavior.fail msg ∧
      fl = { mailbox := env.mailbox.smtpAddress
             displayName := env.mailbox.displayName
             error := msg } := by
  cases hb : env.behavior with
  | fail msg =>
    rw [runSearchTask_of_fail pageSize limit folders env msg hb] at h
    simp only [Option.some.injEq, TaskResult.failure.injEq] at h
    exact ⟨msg, rfl, h.symm⟩
  | ok store =>
    rw [runSearchTask_of_ok pageSize limit folders env store hb] at h
    split at h <;> simp at h

theorem natListLe_total : ∀ xs ys : List Nat, natListLe xs ys = true ∨ natListLe ys xs = true := by
  intro xs
  induction xs with
  | nil => intro ys; left; rfl
  | cons a as ih =>
    intro ys
    cases ys with
    | nil => right; rfl
    | cons b bs =>
      simp only [natListLe]
      rcases Nat.lt_trichotomy a b with h | h | h
      · left; simp [h]
      · subst h
        simp only [Nat.lt_irrefl, if_false]
        exact ih bs
      · right; simp [h]

theorem natListLe_trans : ∀ xs ys zs : List Nat, natListLe xs ys = true →
    natListLe ys zs = true → natListLe xs zs = true := by
  intro xs
  induction xs with
  | nil => intro ys zs h1 h2; rfl
  | cons a as ih =>
    intro ys zs h1 h2
    cases ys with
    | nil => simp [natListLe] at h1
    | cons b bs =>
      cases zs with
      | nil => simp [natListLe] at h2
      | cons c cs =>
        simp only [natListLe] at h1 h2 ⊢
        split_ifs at h1 h2 ⊢ <;>
          first
            | rfl
            | omega
            | exact ih bs cs h1 h2

theorem charListLt_irrefl : ∀ xs : List Char, charListLt xs xs = false := by
  intro xs
  induction xs with
  | nil => rfl
  | cons a as ih => simpa [charListLt] using ih

theorem charListLt_trans : ∀ xs ys zs : List Char, charListLt xs ys = true →
    charListLt ys zs = true → charListLt xs zs = true := by
  intro xs
  induction xs with
  | nil =>
    intro ys zs h1 h2
    cases ys with
    | nil => exact h2
    | cons b bs =>
      cases zs with
      | nil => simp [charListLt] at h2
      | cons c cs => rfl
  | cons a as ih =>
    intro ys zs h1 h2
    cases ys with
    | nil => simp [charListLt] at h1
    | cons b bs =>
      cases zs with
      | nil => simp [charListLt] at h2
      | cons c cs =>
        simp only [charListLt] at h1 h2 ⊢
        split_ifs at h1 h2 ⊢ <;>
          first
            | rfl
            | omega
            | exact ih bs cs h1 h2

theorem charListLt_connex : ∀ xs ys : List Char, xs ≠ ys →
    charListLt xs ys = true ∨ charListLt ys xs = true := by
  intro xs
  induction xs with
  | nil =>
    intro ys hne
    cases ys with
    | nil => exact absurd rfl hne
    | cons b bs => left; rfl
  | cons a as ih =>
    intro ys hne
    cases ys with
    | nil => right; rfl
    | cons b bs =>
      simp only [charListLt]
      rcases Nat.lt_trichotomy a.toNat b.toNat with h | h | h
      · left; simp [h]
      · have hab : a = b := by
          have h2 : a.val = b.val := by
            unfold Char.toNat at h
            exact UInt32.toNat.inj h
          exact Char.eq_of_val_eq h2
        subst hab
        have hne2 : as ≠ bs := by
          intro hh
          exact hne (by rw [hh])
        simp only [Nat.lt_irrefl, if_false]
        exact ih bs hne2
      · right; simp [h]

theorem localeLe_total (a b : String) : localeLe a b = true ∨ localeLe b a = true := by
  unfold localeLe
  by_cases h : jsToLower a = jsToLower b
  · rw [if_pos h, if_pos h.symm]
    exact natListLe_total _ _
  · rw [if_neg h, if_neg (Ne.symm h)]
    have hd : (jsToLower a).data ≠ (jsToLower b).data := by
      intro hh
      exact h (String.ext hh)
    exact charListLt_connex _ _ hd

theorem localeLe_trans (a b c : String) (h1 : localeLe a b = true)
    (h2 : localeLe b c = true) : localeLe a c = true := by
  unfold localeLe at h1 h2 ⊢
  by_cases hab : jsToLower a = jsToLower b
  · by_cases hbc : jsToLower b = jsToLower c
    · rw [if_pos hab] at h1
      rw [if_pos hbc] at h2
      rw [if_pos (hab.trans hbc)]
      exact natListLe_trans _ _ _ h1 h2
    · rw [if_neg hbc] at h2
      have hac : jsToLower a ≠ jsToLower c := by
        intro hh
        exact hbc (hab.symm.trans hh)
      rw [if_neg hac, hab]
      exact h2
  · by_cases hbc : jsToLower b = jsToLower c
    · rw [if_neg hab] at h1
      have hac : jsToLower a ≠ jsToLower c := by
        intro hh
        exact hab (hh.trans hbc.symm)
      rw [if_neg hac, ← hbc]
      exact h1
    · rw [if_neg hab] at h1
      rw [if_neg hbc] at h2
      have hlt : charListLt (jsToLower a).data (jsToLower c).data = true :=
        charListLt_trans _ _ _ h1 h2
      have hac : jsToLower a ≠ jsToLower c := by
        intro hh
        rw [hh] at hlt
        rw [charListLt_irrefl] at hlt
        exact Bool.false_ne_true hlt
      rw [if_neg hac]
      exact hlt

theorem sortByMailbox_sorted {ρ : Type} (mailboxOf : ρ → String) (l : List ρ) :
    List.Sorted (fun a b => localeLe (mailboxOf a) (mailboxOf b) = true)
      (sortByMailbox mailboxOf l) := by
  haveI ht : IsTotal ρ (fun a b => localeLe (mailboxOf a) (mailboxOf b) = true) :=
    ⟨fun a b => localeLe_total _ _⟩
  haveI htr : IsTrans ρ (fun a b => localeLe (mailboxOf a) (mailboxOf b) = true) :=
    ⟨fun a b c => localeLe_trans _ _ _⟩
  exact List.sorted_insertionSort _ l

theorem sortByMailbox_perm {ρ : Type} (mailboxOf : ρ → String) (l : List ρ) :
    List.Perm (sortByMailbox mailboxOf l) l :=
  List.perm_insertionSort _ l

theorem deleteMessages_ok_elim (cfg : ServiceConfig) (envs : List MailboxEnv)
    (filters : DeleteFilters) (run : DeleteRun) (fs : List FolderDescriptor)
    (hfs : resolveFolders cfg.defaultFolders filters.folders = Except.ok fs)
    (hrun : deleteMessages cfg envs filters = Except.ok run) :
    run = deleteMessagesResolved cfg envs filters fs := by
  unfold deleteMessages at hrun
  rw [hfs] at hrun
  exact (Except.ok.injEq _ _ ▸ hrun).symm

theorem searchMessages_ok_elim (cfg : ServiceConfig) (envs : List MailboxEnv)
    (filters : SearchFilters) (resp : SearchResponse) (fs : List FolderDescriptor)
    (hfs : resolveFolders cfg.defaultFolders filters.folders = Except.ok fs)
    (hresp : searchMessages cfg envs filters = Except.ok resp) :
    resp = searchMessagesResolved cfg envs filters fs := by
  unfold searchMessages at hresp
  rw [hfs] at hresp
  exact (Except.ok.injEq _ _ ▸ hresp).symm

theorem deleteMessagesResolved_nonempty (cfg : ServiceConfig) (envs : List MailboxEnv)
    (filters : DeleteFilters) (fs : List FolderDescriptor)
    (h : envs.isEmpty = false) :
    deleteMessagesResolved cfg envs filters fs = {
      response := {
        summary := {
          totalMailboxesScanned := envs.length
          mailboxesWithMatches := (deleteAgg cfg envs filters fs).1.length
          totalMatches :=
            ((deleteAgg cfg envs filters fs).1.map DeleteOutcome.totalMatches).sum
          totalDeleted :=
            ((deleteAgg cfg envs filters fs).1.map DeleteOutcome.deleted).sum
          mode := effectiveModeKeyOf filters
          simulate := filters.simulate }
        query := some (buildAqsQuery {
          sender := filters.sender
          subject := filters.subject
          body := filters.body
          receivedFrom := filters.receivedFrom
          receivedTo := filters.receivedTo })
        results := sortByMailbox DeleteOutcome.mailbox (deleteAgg cfg envs filters fs).1
        failures := (deleteAgg cfg envs filters fs).2 }
      deleteCalls := ((deleteTasks cfg envs filters fs).map Prod.snd).flatten } := by
  unfold deleteMessagesResolved deleteAgg deleteTasks deleteModeOf deleteLimit
    effectiveModeKeyOf
  rw [if_neg (by simp [h])]

theorem deleteMessagesResolved_empty (cfg : ServiceConfig) (filters : DeleteFilters)
    (fs : List FolderDescriptor) :
    deleteMessagesResolved cfg [] filters fs = {
      response := {
        summary := {
          totalMailboxesScanned := 0
          mailboxesWithMatches := 0
          totalMatches := 0
          totalDeleted := 0
          mode := effectiveModeKeyOf filters
          simulate := filters.simulate }
        query := none
        results := []
        failures := [] }
      deleteCalls := [] } := rfl

theorem searchMessagesResolved_nonempty (cfg : ServiceConfig) (envs : List MailboxEnv)
    (filters : SearchFilters) (fs : List FolderDescriptor)
    (h : envs.isEmpty = false) :
    searchMessagesResolved cfg envs filters fs = {
      summary := {
        totalMailboxesScanned := envs.length
        mailboxesWithMatches := (searchAgg cfg envs filters fs).1.length
        totalMessages :=
          ((searchAgg cfg envs filters fs).1.map SearchOutcome.totalMatches).sum }
      query := some (buildAqsQuery {
        sender := filters.sender
        subject := filters.subject
        body := filters.body
        keywords := filters.keywords
        receivedFrom := filters.receivedFrom
        receivedTo := filters.receivedTo
        hasAttachments := filters.hasAttachments
        importance := filters.importance })
      results := sortByMailbox SearchOutcome.mailbox (searchAgg cfg envs filters fs).1
      failures := (searchAgg cfg envs filters fs).2 } := by
  unfold searchMessagesResolved searchAgg searchTasks searchLimit
  rw [if_neg (by simp [h])]

theorem searchMessagesResolved_empty (cfg : ServiceConfig) (filters : SearchFilters)
    (fs : List FolderDescriptor) :
    searchMessagesResolved cfg [] filters fs = {
      summary := {
        totalMailboxesScanned := 0
        mailboxesWithMatches := 0
        totalMessages := 0 }
      query := none
      results := []
      failures := [] } := rfl

theorem flatten_eq_nil_of_forall {α : Type} :
    ∀ l : List (List α), (∀ x ∈ l, x = []) → l.flatten = [] := by
  intro l h
  induction l with
  | nil => rfl
  | cons hd tl ih =>
    rw [List.flatten_cons, h hd (by simp), List.nil_append]
    exact ih (fun x hx => h x (by simp [hx]))

theorem deleteForMailbox_simulate_calls (store : MailboxStore) (pageSize limit : Nat)
    (mailbox : String) (folders : List FolderDescriptor) (mode : DeleteMode) :
    (deleteForMailbox store pageSize limit mailbox folders mode true).deleteCalls
      = [] := by
  simp [deleteForMailbox]

theorem deleteForMailbox_simulate_deleted (store : MailboxStore) (pageSize limit : Nat)
    (mailbox : String) (folders : List FolderDescriptor) (mode : DeleteMode) :
    (deleteForMailbox store pageSize limit mailbox folders mode true).deleted = 0 :=
  rfl

theorem deleteForMailbox_matches_mode_free (store : MailboxStore)
    (pageSize limit : Nat) (mailbox : String) (folders : List FolderDescriptor)
    (mode : DeleteMode) (simulate : Bool) :
    (deleteForMailbox store pageSize limit mailbox folders mode simulate).«matches»
      = (deleteScanLoop store pageSize limit mailbox folders [] []).1 :=
  rfl

theorem deleteForMailbox_deleted_live (store : MailboxStore) (pageSize limit : Nat)
    (mailbox : String) (folders : List FolderDescriptor) (mode : DeleteMode) :
    (deleteForMailbox store pageSize limit mailbox folders mode false).deleted
      = (deleteScanLoop store pageSize limit mailbox folders [] []).2.length :=
  rfl

theorem runDeleteTask_snd_simulate (pageSize limit : Nat)
    (folders : List FolderDescriptor) (mode : DeleteMode) (env : MailboxEnv) :
    (runDeleteTask pageSize limit folders mode true env).2 = [] := by
  cases hb : env.behavior with
  | fail msg => rw [runDeleteTask_of_fail pageSize limit folders mode true env msg hb]
  | ok store =>
    unfold runDeleteTask
    rw [hb]
    dsimp only
    split <;> exact deleteForMailbox_simulate_calls store pageSize limit
      env.mailbox.smtpAddress folders mode

theorem lookupReg_eraseReg (reg : Registry) (id : String) :
    lookupReg (eraseReg reg id) id = none := by
  induction reg with
  | nil => rfl
  | cons p tl ih =>
    by_cases h : p.1 = id
    · simp only [lookupReg, eraseReg] at ih ⊢
      simp [List.filter_cons, h]
    · simp only [lookupReg, eraseReg] at ih ⊢
      simp [List.filter_cons, List.find?_cons, h]

theorem lookupReg_setReg (reg : Registry) (id : String) (ctx ctx2 : PurgeContext)
    (h : lookupReg reg id = some ctx) :
    lookupReg (setReg reg id ctx2) id = some ctx2 := by
  induction reg with
  | nil => simp [lookupReg] at h
  | cons p tl ih =>
    by_cases hp : p.1 = id
    · simp [lookupReg, setReg, hp]
    · have h2 : lookupReg tl id = some ctx := by
        simpa [lookupReg, List.find?_cons, hp] using h
      have h3 := ih h2
      simpa [lookupReg, setReg, List.find?_cons, hp] using h3

theorem delete_results_addr_iff (cfg : ServiceConfig) (envs : List MailboxEnv)
    (filters : DeleteFilters) (fs : List FolderDescriptor)
    (hnodup : (envs.map (fun e => e.mailbox.smtpAddress)).Nodup)
    (env : MailboxEnv) (henv : env ∈ envs) :
    (env.mailbox.smtpAddress ∈
        (deleteAgg cfg envs filters fs).1.map DeleteOutcome.mailbox) ↔
      ∃ o, (runDeleteTask cfg.pageSize (deleteLimit cfg filters) fs
        (deleteModeOf filters) filters.simulate env).1 =
          some (TaskResult.success o) := by
  unfold deleteAgg deleteTasks
  rw [List.map_map]
  constructor
  · intro hmem
    rcases List.mem_map.mp hmem with ⟨o, ho, haddr⟩
    have hin := (mem_aggregateOutcomes_results _ o).mp ho
    rcases List.mem_map.mp hin with ⟨env2, henv2, heq⟩
    have heq2 : (runDeleteTask cfg.pageSize (deleteLimit cfg filters) fs
        (deleteModeOf filters) filters.simulate env2).1 =
        some (TaskResult.success o) := heq
    rcases runDeleteTask_success_elim _ _ _ _ _ _ _ heq2 with ⟨store, hb, hne, hoeq⟩
    have haddr2 : o.mailbox = env2.mailbox.smtpAddress := by rw [hoeq]
    have haddr3 : env2.mailbox.smtpAddress = env.mailbox.smtpAddress := by
      rw [← haddr2, haddr]
    have henveq : env2 = env :=
      List.inj_on_of_nodup_map hnodup henv2 henv haddr3
    rw [henveq] at heq2
    exact ⟨o, heq2⟩
  · intro hex
    rcases hex with ⟨o, ho⟩
    have hmem : some (TaskResult.success o) ∈ envs.map
        (Prod.fst ∘ runDeleteTask cfg.pageSize (deleteLimit cfg filters) fs
          (deleteModeOf filters) filters.simulate) :=
      List.mem_map.mpr ⟨env, henv, ho⟩
    have ho2 := (mem_aggregateOutcomes_results _ o).mpr hmem
    have haddr : o.mailbox = env.mailbox.smtpAddress := by
      rcases runDeleteTask_success_elim _ _ _ _ _ _ _ ho with ⟨store, hb, hne, hoeq⟩
      rw [hoeq]
    exact List.mem_map.mpr ⟨o, ho2, haddr⟩

theorem delete_failures_addr_iff (cfg : ServiceConfig) (envs : List MailboxEnv)
    (filters : DeleteFilters) (fs : List FolderDescriptor)
    (hnodup : (envs.map (fun e => e.mailbox.smtpAddress)).Nodup)
    (env : MailboxEnv) (henv : env ∈ envs) :
    (env.mailbox.smtpAddress ∈
        (deleteAgg cfg envs filters fs).2.map MailboxFailure.mailbox) ↔
      ∃ fl, (runDeleteTask cfg.pageSize (deleteLimit cfg filters) fs
        (deleteModeOf filters) filters.simulate env).1 =
          some (TaskResult.failure fl) := by
  unfold deleteAgg deleteTasks
  rw [List.map_map]
  constructor
  · intro hmem
    rcases List.mem_map.mp hmem with ⟨fl, hfl, haddr⟩
    have hin := (mem_aggregateOutcomes_failures _ fl).mp hfl
    rcases List.mem_map.mp hin with ⟨env2, henv2, heq⟩
    have heq2 : (runDeleteTask cfg.pageSize (deleteLimit cfg filters) fs
        (deleteModeOf filters) filters.simulate env2).1 =
        some (TaskResult.failure fl) := heq
    rcases runDeleteTask_failure_elim _ _ _ _ _ _ _ heq2 with ⟨msg, hb, hfleq⟩
    have haddr2 : fl.mailbox = env2.mailbox.smtpAddress := by rw [hfleq]
    have haddr3 : env2.mailbox.smtpAddress = env.mailbox.smtpAddress := by
      rw [← haddr2, haddr]
    have henveq : env2 = env :=
      List.inj_on_of_nodup_map hnodup henv2 henv haddr3
    rw [henveq] at heq2
    exact ⟨fl, heq2⟩
  · intro hex
    rcases hex with ⟨fl, hfl⟩
    have hmem : some (TaskResult.failure fl) ∈ envs.map
        (Prod.fst ∘ runDeleteTask cfg.pageSize (deleteLimit cfg filters) fs
          (deleteModeOf filters) filters.simulate) :=
      List.mem_map.mpr ⟨env, henv, hfl⟩
    have hfl2 := (mem_aggregateOutcomes_failures _ fl).mpr hmem
    have haddr : fl.mailbox = env.mailbox.smtpAddress := by
      rcases runDeleteTask_failure_elim _ _ _ _ _ _ _ hfl with ⟨msg, hb, hfleq⟩
      rw [hfleq]
    exact List.mem_map.mpr ⟨fl, hfl2, haddr⟩

theorem search_results_addr_iff (cfg : ServiceConfig) (envs : List MailboxEnv)
    (filters : SearchFilters) (fs : List FolderDescriptor)
    (hnodup : (envs.map (fun e => e.mailbox.smtpAddress)).Nodup)
    (env : MailboxEnv) (henv : env ∈ envs) :
    (env.mailbox.smtpAddress ∈
        (searchAgg cfg envs filters fs).1.map SearchOutcome.mailbox) ↔
      ∃ o, runSearchTask cfg.pageSize (searchLimit cfg filters) fs env =
          some (TaskResult.success o) := by
  unfold searchAgg searchTasks
  constructor
  · intro hmem
    rcases List.mem_map.mp hmem with ⟨o, ho, haddr⟩
    have hin := (mem_aggregateOutcomes_results _ o).mp ho
    rcases List.mem_map.mp hin with ⟨env2, henv2, heq⟩
    rcases runSearchTask_success_elim _ _ _ _ _ heq with ⟨store, hb, hne, hoeq⟩
    have haddr2 : o.mailbox = env2.mailbox.smtpAddress := by rw [hoeq]
    have haddr3 : env2.mailbox.smtpAddress = env.mailbox.smtpAddress := by
      rw [← haddr2, haddr]
    have henveq : env2 = env :=
      List.inj_on_of_nodup_map hnodup henv2 henv haddr3
    rw [henveq] at heq
    exact ⟨o, heq⟩
  · intro hex
    rcases hex with ⟨o, ho⟩
    have hmem : some (TaskResult.success o) ∈ envs.map
        (runSearchTask cfg.pageSize (searchLimit cfg filters) fs) :=
      List.mem_map.mpr ⟨env, henv, ho⟩
    have ho2 := (mem_aggregateOutcomes_results _ o).mpr hmem
    have haddr : o.mailbox = env.mailbox.smtpAddress := by
      rcases runSearchTask_success_elim _ _ _ _ _ ho with ⟨store, hb, hne, hoeq⟩
      rw [hoeq]
    exact List.mem_map.mpr ⟨o, ho2, haddr⟩

theorem search_failures_addr_iff (cfg : ServiceConfig) (envs : List MailboxEnv)
    (filters : SearchFilters) (fs : List FolderDescriptor)
    (hnodup : (envs.map (fun e => e.mailbox.smtpAddress)).Nodup)
    (env : MailboxEnv) (henv : env ∈ envs) :
    (env.mailbox.smtpAddress ∈
        (searchAgg cfg envs filters fs).2.map MailboxFailure.mailbox) ↔
      ∃ fl, runSearchTask cfg.pageSize (searchLimit cfg filters) fs env =
          some (TaskResult.failure fl) := by
  unfold searchAgg searchTasks
  constructor
  · intro hmem
    rcases List.mem_map.mp hmem with ⟨fl, hfl, haddr⟩
    have hin := (mem_aggregateOutcomes_failures _ fl).mp hfl
    rcases List.mem_map.mp hin with ⟨env2, henv2, heq⟩
    rcases runSearchTask_failure_elim _ _ _ _ _ heq with ⟨msg, hb, hfleq⟩
    have haddr2 : fl.mailbox = env2.mailbox.smtpAddress := by rw [hfleq]
    have haddr3 : env2.mailbox.smtpAddress = env.mailbox.smtpAddress := by
      rw [← haddr2, haddr]
    have henveq : env2 = env :=
      List.inj_on_of_nodup_map hnodup henv2 henv haddr3
    rw [henveq] at heq
    exact ⟨fl, heq⟩
  · intro hex
    rcases hex with ⟨fl, hfl⟩
    have hmem : some (TaskResult.failure fl) ∈ envs.map
        (runSearchTask cfg.pageSize (searchLimit cfg filters) fs) :=
      List.mem_map.mpr ⟨env, henv, hfl⟩
    have hfl2 := (mem_aggregateOutcomes_failures _ fl).mpr hmem
    have haddr : fl.mailbox = env.mailbox.smtpAddress := by
      rcases runSearchTask_failure_elim _ _ _ _ _ hfl with ⟨msg, hb, hfleq⟩
      rw [hfleq]
    exact List.mem_map.mpr ⟨fl, hfl2, haddr⟩

/-! ## Claim theorems -/

/-- C8: for every folder-scan invocation with a positive configured page
size, the scanner returns exactly the first `limit` items the folder serves
(in particular at most `limit` items, terminating once `limit` items are
collected or no further pages remain), and every invocation with
`limit ≤ 0` returns an empty result with zero remote find calls. -/
theorem folder_scanner_bounded (folderItems : List Item) (pageSize : Nat)
    (limit : Int) (hps : 1 ≤ pageSize) :
    (findItemsInFolder folderItems pageSize limit).1 =
        folderItems.take limit.toNat ∧
    (findItemsInFolder folderItems pageSize limit).1.length ≤ limit.toNat ∧
    (limit ≤ 0 → findItemsInFolder folderItems pageSize limit = ([], 0)) := by
  refine ⟨findItemsInFolder_take _ _ _ hps, ?_, ?_⟩
  · rw [findItemsInFolder_take _ _ _ hps]
    rw [List.length_take]
    omega
  · intro h
    unfold findItemsInFolder
    rw [if_pos h]

/-- Witness for `folder_scanner_bounded` at a five-item folder with page
size 2 and limit 3. -/
theorem folder_scanner_bounded_witness :
    1 ≤ 2 ∧
    ((findItemsInFolder [⟨1⟩, ⟨2⟩, ⟨3⟩, ⟨4⟩, ⟨5⟩] 2 3).1 =
        ([⟨1⟩, ⟨2⟩, ⟨3⟩, ⟨4⟩, ⟨5⟩] : List Item).take (Int.toNat 3) ∧
     (findItemsInFolder [⟨1⟩, ⟨2⟩, ⟨3⟩, ⟨4⟩, ⟨5⟩] 2 3).1.length ≤ Int.toNat 3 ∧
     ((3 : Int) ≤ 0 → findItemsInFolder [⟨1⟩, ⟨2⟩, ⟨3⟩, ⟨4⟩, ⟨5⟩] 2 3 = ([], 0))) :=
  ⟨by decide, folder_scanner_bounded [⟨1⟩, ⟨2⟩, ⟨3⟩, ⟨4⟩, ⟨5⟩] 2 3 (by decide)⟩

/-- C7: for every filter, the Query Compiler output is the AND-join of the
applicable clauses in the fixed order sender, subject, body, keywords
(each keyword AND-joined), received-after, received-before, attachment flag,
importance, and the fixed default clause when no clause applies. -/
theorem buildAqsQuery_fixed_order (f : AqsFilter) :
    buildAqsQuery f =
      (if (specClauses f).isEmpty then DEFAULT_QUERY
       else " AND ".intercalate (specClauses f)) := by
  unfold buildAqsQuery specClauses
  simp only [List.nil_append, List.append_assoc]

/-- C9 counterexample: a delete body supplying a subject but no sender
satisfies the at-least-one-of-sender-or-subject condition, yet delete
validation rejects it, because `deleteSchema` forks `sender` to required. -/
theorem delete_subject_only_rejected :
    hasPrimaryFilter none (some "Quarterly report") = true ∧
    deletePrimaryAccepts none (some "Quarterly report") = false := by
  constructor <;> rfl

/-- C9 amended: delete validation accepts a request (with respect to the
primary filter) exactly when a sender is present; a subject alone never
passes, while search validation accepts exactly when at least one of
sender or subject is present. -/
theorem delete_validation_requires_sender (sender subject : Option String) :
    deletePrimaryAccepts sender subject = present sender ∧
    deletePrimaryAccepts none subject = false ∧
    searchPrimaryAccepts sender subject = (present sender || present subject) := by
  refine ⟨?_, rfl, rfl⟩
  unfold deletePrimaryAccepts hasPrimaryFilter
  cases hp : present sender
  · rfl
  · rfl

/-- C5: for every cancel request, an unknown identifier (or one whose
process handle was already cleared) yields a 404 not-found response; an
identifier whose process has already exited yields a 409 already-finished
response and the registry entry is purged, and its status is never
"cancelling"; a live identifier gets the cancelled flag set on its registry
entry and a 200 response reporting "cancelling" exactly when the
termination signal was accepted and "pending" otherwise. -/
theorem cancel_endpoint_spec (reg : Registry) (id : String) :
    (lookupReg reg id = none →
      cancelPurge reg id =
        (reg, { httpStatus := 404, status := CancelStatus.notFound })) ∧
    (∀ ctx, lookupReg reg id = some ctx → ctx.child = none →
      cancelPurge reg id =
        (reg, { httpStatus := 404, status := CancelStatus.notFound })) ∧
    (∀ ctx ch, lookupReg reg id = some ctx → ctx.child = some ch →
      ch.exitCode ≠ none →
      (cancelPurge reg id).2 =
        { httpStatus := 409, status := CancelStatus.alreadyFinished } ∧
      lookupReg (cancelPurge reg id).1 id = none ∧
      (cancelPurge reg id).2.status ≠ CancelStatus.cancelling) ∧
    (∀ ctx ch, lookupReg reg id = some ctx → ctx.child = some ch →
      ch.exitCode = none →
      (cancelPurge reg id).2 =
        { httpStatus := 200
          status := if ch.killOk then CancelStatus.cancelling
            else CancelStatus.pending } ∧
      (lookupReg (cancelPurge reg id).1 id).map PurgeContext.cancelled =
        some true) := by
  refine ⟨?_, ?_, ?_, ?_⟩
  · intro h
    unfold cancelPurge
    rw [h]
  · intro ctx h hc
    unfold cancelPurge
    rw [h]
    dsimp only
    rw [hc]
  · intro ctx ch h hc hex
    unfold cancelPurge
    rw [h]
    dsimp only
    rw [hc]
    dsimp only
    rw [if_pos hex]
    refine ⟨rfl, lookupReg_eraseReg reg id, by simp⟩
  · intro ctx ch h hc hex
    unfold cancelPurge
    rw [h]
    dsimp only
    rw [hc]
    dsimp only
    rw [if_neg (by simp [hex])]
    refine ⟨rfl, ?_⟩
    rw [lookupReg_setReg reg id ctx _ h]
    rfl

/-- Witness for `cancel_endpoint_spec`: a registry holding one live and one
exited operation; cancelling the live one reports "cancelling" and marks it
cancelled, cancelling the exited one reports already-finished and purges it,
and an unknown id is not found. -/
theorem cancel_endpoint_spec_witness :
    ((cancelPurge [("op-1", livePurgeCtx)] "op-1").2 =
        { httpStatus := 200, status := CancelStatus.cancelling } ∧
      (lookupReg (cancelPurge [("op-1", livePurgeCtx)] "op-1").1 "op-1").map
        PurgeContext.cancelled = some true) ∧
    ((cancelPurge [("op-2", exitedPurgeCtx)] "op-2").2 =
        { httpStatus := 409, status := CancelStatus.alreadyFinished } ∧
      lookupReg (cancelPurge [("op-2", exitedPurgeCtx)] "op-2").1 "op-2" = none ∧
      (cancelPurge [("op-2", exitedPurgeCtx)] "op-2").2.status ≠
        CancelStatus.cancelling) ∧
    cancelPurge [] "op-3" =
      ([], { httpStatus := 404, status := CancelStatus.notFound }) := by
  refine ⟨?_, ?_, ?_⟩
  · have h := ((cancel_endpoint_spec [("op-1", livePurgeCtx)] "op-1").2.2.2)
      livePurgeCtx { exitCode := none, killOk := true } rfl rfl rfl
    exact h
  · exact ((cancel_endpoint_spec [("op-2", exitedPurgeCtx)] "op-2").2.2.1)
      exitedPurgeCtx { exitCode := some 0, killOk := true } rfl rfl (by decide)
  · exact (cancel_endpoint_spec [] "op-3").1 rfl

theorem purgeStep_cancel_registry (id : String) (simulate : Bool)
    (st : PurgeState)
    (h : st.registry = [] ∨ ∃ ctx, st.registry = [(id, ctx)]) :
    (purgeStep id simulate st PurgeEvent.cancelRequest).registry = [] ∨
      ∃ ctx, (purgeStep id simulate st PurgeEvent.cancelRequest).registry
        = [(id, ctx)] := by
  rcases h with h | ⟨ctx, h⟩
  · left
    show (cancelPurge st.registry id).1 = []
    rw [h]
    rfl
  · show (cancelPurge st.registry id).1 = [] ∨
      ∃ ctx2, (cancelPurge st.registry id).1 = [(id, ctx2)]
    rw [h]
    unfold cancelPurge
    have hlook : lookupReg [(id, ctx)] id = some ctx := by simp [lookupReg]
    rw [hlook]
    dsimp only
    cases hch : ctx.child with
    | none => exact Or.inr ⟨ctx, rfl⟩
    | some ch =>
      dsimp only
      cases hex : ch.exitCode with
      | some c =>
        left
        rw [if_pos (by simp [hex])]
        simp [eraseReg]
      | none =>
        right
        rw [if_neg (by simp [hex])]
        refine ⟨{ requestId := ctx.requestId
                  child := some ch
                  cancelled := true
                  cancelReason :=
                    some (ctx.cancelReason.getD "user_requested") }, ?_⟩
        simp [setReg]

theorem nonClose_fold_invariant (id : String) (simulate : Bool) :
    ∀ (pre : List PurgeEvent) (st : PurgeState),
      (∀ e ∈ pre, isClose e = false) → st.audits = [] →
      (st.registry = [] ∨ ∃ ctx, st.registry = [(id, ctx)]) →
      (List.foldl (purgeStep id simulate) st pre).audits = [] ∧
      ((List.foldl (purgeStep id simulate) st pre).registry = [] ∨
        ∃ ctx, (List.foldl (purgeStep id simulate) st pre).registry
          = [(id, ctx)]) := by
  intro pre
  induction pre with
  | nil => intro st _ ha hr; exact ⟨ha, hr⟩
  | cons e rest ih =>
    intro st h ha hr
    rw [List.foldl_cons]
    have hrest : ∀ e2 ∈ rest, isClose e2 = false :=
      fun e2 h2 => h e2 (by simp [h2])
    cases e with
    | close c sg =>
      have := h (PurgeEvent.close c sg) (by simp)
      simp [isClose] at this
    | cancelRequest =>
      apply ih _ hrest
      · exact ha
      · exact purgeStep_cancel_registry id simulate st hr
    | spawnError =>
      apply ih _ hrest
      · exact ha
      · left
        show eraseReg st.registry id = []
        rcases hr with hr | ⟨ctx, hr⟩ <;> rw [hr] <;> simp [eraseReg]

/-- C4: every purge operation that reaches its terminal state — completed,
simulated, failed (including spawn failure, where the runtime emits the
error event and then the guaranteed close event) or cancelled, after any
number of cancel requests — has its entry removed from the active operation
registry and exactly one audit log entry, carrying its operation id,
assembled and persisted. -/
theorem terminal_single_audit (id : String) (simulate killOk : Bool)
    (pre : List PurgeEvent) (code : Option Int) (signal : Option String)
    (hpre : ∀ e ∈ pre, isClose e = false) :
    (runPurge id simulate killOk
      (pre ++ [PurgeEvent.close code signal])).audits.length = 1 ∧
    (runPurge id simulate killOk
      (pre ++ [PurgeEvent.close code signal])).audits.map
        AuditLogEntry.requestId = [id] ∧
    lookupReg (runPurge id simulate killOk
      (pre ++ [PurgeEvent.close code signal])).registry id = none := by
  unfold runPurge
  rw [List.foldl_append, List.foldl_cons, List.foldl_nil]
  obtain ⟨ha, hr⟩ := nonClose_fold_invariant id simulate pre
    (initialPurgeState id killOk) hpre rfl (Or.inr ⟨_, rfl⟩)
  refine ⟨?_, ?_, lookupReg_eraseReg _ _⟩
  · show (onClose _ id simulate code signal).audits.length = 1
    unfold onClose
    rw [ha]
    rfl
  · show (onClose _ id simulate code signal).audits.map
      AuditLogEntry.requestId = [id]
    unfold onClose
    rw [ha]
    rfl

/-- Witness for `terminal_single_audit`: a lifecycle with one cancel
request and a spawn failure, followed by the runtime's guaranteed close
event, persists exactly one audit entry and leaves the registry without the
operation. -/
theorem terminal_single_audit_witness :
    (∀ e ∈ [PurgeEvent.cancelRequest, PurgeEvent.spawnError],
      isClose e = false) ∧
    ((runPurge "op-1" false true
        ([PurgeEvent.cancelRequest, PurgeEvent.spawnError] ++
          [PurgeEvent.close none none])).audits.length = 1 ∧
      (runPurge "op-1" false true
        ([PurgeEvent.cancelRequest, PurgeEvent.spawnError] ++
          [PurgeEvent.close none none])).audits.map
            AuditLogEntry.requestId = ["op-1"] ∧
      lookupReg (runPurge "op-1" false true
        ([PurgeEvent.cancelRequest, PurgeEvent.spawnError] ++
          [PurgeEvent.close none none])).registry "op-1" = none) :=
  ⟨by decide, terminal_single_audit "op-1" false true
    [PurgeEvent.cancelRequest, PurgeEvent.spawnError] none none (by decide)⟩

/-- C10: a delete request whose deleteMode string is not one of the three
mapped keys (compared case-insensitively) is not rejected: the request
behaves exactly as with deleteMode "softDelete", and its summary reports
mode "softdelete". -/
theorem unknown_deleteMode_soft_fallback (cfg : ServiceConfig)
    (envs : List MailboxEnv) (filters : DeleteFilters)
    (h : DELETE_MODE_MAP (jsToLower filters.deleteMode) = none) :
    deleteMessages cfg envs filters =
      deleteMessages cfg envs { filters with deleteMode := "softDelete" } ∧
    (∀ run, deleteMessages cfg envs filters = Except.ok run →
      run.response.summary.mode = "softdelete") := by
  have hbody : ∀ fs, deleteMessagesResolved cfg envs filters fs =
      deleteMessagesResolved cfg envs
        { filters with deleteMode := "softDelete" } fs := by
    intro fs
    unfold deleteMessagesResolved effectiveModeKeyOf
    simp only [h]
    rfl
  constructor
  · unfold deleteMessages
    simp only [show ({ filters with deleteMode := "softDelete" } :
      DeleteFilters).folders = filters.folders from rfl]
    cases hres : resolveFolders cfg.defaultFolders filters.folders with
    | ok fs =>
      dsimp only
      rw [hbody fs]
    | error e => rfl
  · intro run hrun
    cases hres : resolveFolders cfg.defaultFolders filters.folders with
    | error e =>
      unfold deleteMessages at hrun
      rw [hres] at hrun
      exact absurd hrun (by simp)
    | ok fs =>
      have hr := deleteMessages_ok_elim cfg envs filters run fs hres hrun
      have hmode : effectiveModeKeyOf filters = "softdelete" := by
        unfold effectiveModeKeyOf
        rw [h]
        rfl
      by_cases he : envs.isEmpty
      · have henvs : envs = [] := by simpa using he
        subst henvs
        rw [deleteMessagesResolved_empty] at hr
        rw [hr]
        exact hmode
      · rw [deleteMessagesResolved_nonempty cfg envs filters fs
          (by simpa using he)] at hr
        rw [hr]
        exact hmode

/-- Witness for `unknown_deleteMode_soft_fallback` at the unmapped mode
string "Obliterate". -/
theorem unknown_deleteMode_soft_fallback_witness :
    DELETE_MODE_MAP (jsToLower
      ({ liveDeleteFilters with deleteMode := "Obliterate" } :
        DeleteFilters).deleteMode) = none ∧
    deleteMessages fixtureConfig caseMixedEnvs
        { liveDeleteFilters with deleteMode := "Obliterate" } =
      deleteMessages fixtureConfig caseMixedEnvs
        { { liveDeleteFilters with deleteMode := "Obliterate" } with
          deleteMode := "softDelete" } ∧
    liveDeleteRun.response.summary.mode = "softdelete" := by
  refine ⟨by decide, ?_, ?_⟩
  · exact (unknown_deleteMode_soft_fallback fixtureConfig caseMixedEnvs
      { liveDeleteFilters with deleteMode := "Obliterate" } (by decide)).1
  · exact (unknown_deleteMode_soft_fallback fixtureConfig caseMixedEnvs
      { liveDeleteFilters with deleteMode := "ObLiTeRaTe" } (by decide)).2
      liveDeleteRun (by rfl)

/-- C1: a delete executor run with simulate on issues no bulk delete call,
reports zero deleted, and scans identically to a live run; and every delete
request with simulate on issues no bulk delete call for any mailbox and
reports summary.totalDeleted = 0. -/
theorem simulate_true_no_deletes (store : MailboxStore) (pageSize limit : Nat)
    (mb : String) (fs : List FolderDescriptor) (mode : DeleteMode)
    (cfg : ServiceConfig) (envs : List MailboxEnv) (filters : DeleteFilters)
    (run : DeleteRun) (hsim : filters.simulate = true)
    (hrun : deleteMessages cfg envs filters = Except.ok run) :
    (deleteForMailbox store pageSize limit mb fs mode true).deleteCalls = [] ∧
    (deleteForMailbox store pageSize limit mb fs mode true).deleted = 0 ∧
    (deleteForMailbox store pageSize limit mb fs mode true).«matches» =
      (deleteForMailbox store pageSize limit mb fs mode false).«matches» ∧
    run.deleteCalls = [] ∧
    run.response.summary.totalDeleted = 0 := by
  refine ⟨deleteForMailbox_simulate_calls store pageSize limit mb fs mode,
    rfl, rfl, ?_⟩
  cases hres : resolveFolders cfg.defaultFolders filters.folders with
  | error e =>
    unfold deleteMessages at hrun
    rw [hres] at hrun
    exact absurd hrun (by simp)
  | ok rfolders =>
    have hr := deleteMessages_ok_elim cfg envs filters run rfolders hres hrun
    by_cases he : envs.isEmpty
    · have henvs : envs = [] := by simpa using he
      subst henvs
      rw [deleteMessagesResolved_empty] at hr
      rw [hr]
      exact ⟨rfl, rfl⟩
    · rw [deleteMessagesResolved_nonempty cfg envs filters rfolders
        (by simpa using he)] at hr
      rw [hr]
      constructor
      · show ((deleteTasks cfg envs filters rfolders).map Prod.snd).flatten = []
        apply flatten_eq_nil_of_forall
        intro x hx
        rcases List.mem_map.mp hx with ⟨task, htask, hxeq⟩
        rcases List.mem_map.mp htask with ⟨env, henv, htaskeq⟩
        rw [← hxeq, ← htaskeq]
        show (runDeleteTask cfg.pageSize (deleteLimit cfg filters) rfolders
          (deleteModeOf filters) filters.simulate env).2 = []
        rw [hsim]
        exact runDeleteTask_snd_simulate cfg.pageSize (deleteLimit cfg filters)
          rfolders (deleteModeOf filters) env
      · show ((deleteAgg cfg envs filters rfolders).1.map
          DeleteOutcome.deleted).sum = 0
        apply List.sum_eq_zero
        intro d hd
        rcases List.mem_map.mp hd with ⟨o, ho, hdeq⟩
        have hsucc := (mem_aggregateOutcomes_results _ o).mp
          (by exact ho)
        rcases List.mem_map.mp hsucc with ⟨task, htask, htaskeq⟩
        rcases List.mem_map.mp htask with ⟨env, henv, henveq⟩
        have hfst : (runDeleteTask cfg.pageSize (deleteLimit cfg filters)
            rfolders (deleteModeOf filters) filters.simulate env).1 =
            some (TaskResult.success o) := by
          rw [henveq, htaskeq]
        rcases runDeleteTask_success_elim _ _ _ _ _ _ _ hfst with
          ⟨store2, hb, hne, hoeq⟩
        rw [← hdeq, hoeq]
        show (deleteForMailbox store2 cfg.pageSize (deleteLimit cfg filters)
          env.mailbox.smtpAddress rfolders (deleteModeOf filters)
          filters.simulate).deleted = 0
        rw [hsim]
        exact deleteForMailbox_simulate_deleted store2 cfg.pageSize
          (deleteLimit cfg filters) env.mailbox.smtpAddress rfolders
          (deleteModeOf filters)

/-- Witness for `simulate_true_no_deletes` on the two-mailbox directory with
the default simulate flag. -/
theorem simulate_true_no_deletes_witness :
    caseMixedFilters.simulate = true ∧
    deleteMessages fixtureConfig caseMixedEnvs caseMixedFilters =
      Except.ok caseMixedRun ∧
    caseMixedRun.deleteCalls = [] ∧
    caseMixedRun.response.summary.totalDeleted = 0 := by
  refine ⟨rfl, rfl, ?_, ?_⟩
  · exact (simulate_true_no_deletes (fun _ => []) 1 1 "m" [] DeleteMode.SoftDelete
      fixtureConfig caseMixedEnvs caseMixedFilters caseMixedRun rfl rfl).2.2.2.1
  · exact (simulate_true_no_deletes (fun _ => []) 1 1 "m" [] DeleteMode.SoftDelete
      fixtureConfig caseMixedEnvs caseMixedFilters caseMixedRun rfl rfl).2.2.2.2

/-- C2: for every delete request with simulate off, summary.totalDeleted
equals the sum of the `deleted` counts over the successful mailbox
outcomes, and each outcome's `deleted` count equals the number of item
identifiers its mailbox scan collected (which also equals its
totalMatches). -/
theorem totalDeleted_sums_per_mailbox (cfg : ServiceConfig)
    (envs : List MailboxEnv) (filters : DeleteFilters) (run : DeleteRun)
    (fs : List FolderDescriptor) (hsim : filters.simulate = false)
    (hfs : resolveFolders cfg.defaultFolders filters.folders = Except.ok fs)
    (hrun : deleteMessages cfg envs filters = Except.ok run) :
    run.response.summary.totalDeleted =
      (run.response.results.map DeleteOutcome.deleted).sum ∧
    ∀ o ∈ run.response.results, ∃ env ∈ envs, ∃ store,
      env.behavior = MailboxBehavior.ok store ∧
      o.mailbox = env.mailbox.smtpAddress ∧
      o.deleted = (deleteScanLoop store cfg.pageSize (deleteLimit cfg filters)
        env.mailbox.smtpAddress fs [] []).2.length ∧
      o.deleted = o.totalMatches := by
  have hr := deleteMessages_ok_elim cfg envs filters run fs hfs hrun
  by_cases he : envs.isEmpty
  · have henvs : envs = [] := by simpa using he
    subst henvs
    rw [deleteMessagesResolved_empty] at hr
    rw [hr]
    exact ⟨rfl, by intro o ho; exact absurd ho (by simp)⟩
  · rw [deleteMessagesResolved_nonempty cfg envs filters fs
      (by simpa using he)] at hr
    rw [hr]
    constructor
    · show ((deleteAgg cfg envs filters fs).1.map DeleteOutcome.deleted).sum =
        ((sortByMailbox DeleteOutcome.mailbox
          (deleteAgg cfg envs filters fs).1).map DeleteOutcome.deleted).sum
      exact (((sortByMailbox_perm DeleteOutcome.mailbox
        (deleteAgg cfg envs filters fs).1).map DeleteOutcome.deleted).sum_eq).symm
    · intro o ho
      have ho2 : o ∈ (deleteAgg cfg envs filters fs).1 :=
        (sortByMailbox_perm DeleteOutcome.mailbox
          (deleteAgg cfg envs filters fs).1).subset ho
      have hsucc := (mem_aggregateOutcomes_results _ o).mp (by exact ho2)
      rcases List.mem_map.mp hsucc with ⟨task, htask, htaskeq⟩
      rcases List.mem_map.mp htask with ⟨env, henv, henveq⟩
      have hfst : (runDeleteTask cfg.pageSize (deleteLimit cfg filters)
          fs (deleteModeOf filters) filters.simulate env).1 =
          some (TaskResult.success o) := by
        rw [henveq, htaskeq]
      rcases runDeleteTask_success_elim _ _ _ _ _ _ _ hfst with
        ⟨store, hb, hne, hoeq⟩
      refine ⟨env, henv, store, hb, ?_, ?_, ?_⟩
      · rw [hoeq]
      · rw [hoeq]
        show (deleteForMailbox store cfg.pageSize (deleteLimit cfg filters)
          env.mailbox.smtpAddress fs (deleteModeOf filters)
          filters.simulate).deleted = _
        rw [hsim]
        exact deleteForMailbox_deleted_live store cfg.pageSize
          (deleteLimit cfg filters) env.mailbox.smtpAddress fs
          (deleteModeOf filters)
      · rw [hoeq]
        show (deleteForMailbox store cfg.pageSize (deleteLimit cfg filters)
            env.mailbox.smtpAddress fs (deleteModeOf filters)
            filters.simulate).deleted =
          (deleteForMailbox store cfg.pageSize (deleteLimit cfg filters)
            env.mailbox.smtpAddress fs (deleteModeOf filters)
            filters.simulate).«matches».length
        rw [hsim, deleteForMailbox_deleted_live,
          deleteForMailbox_matches_mode_free]
        exact (deleteScanLoop_lengths store cfg.pageSize
          (deleteLimit cfg filters) env.mailbox.smtpAddress fs [] [] rfl).symm

/-- Witness for `totalDeleted_sums_per_mailbox` on the two-mailbox directory
with simulation off. -/
theorem totalDeleted_sums_per_mailbox_witness :
    liveDeleteFilters.simulate = false ∧
    resolveFolders fixtureConfig.defaultFolders liveDeleteFilters.folders =
      Except.ok fixtureFolders ∧
    deleteMessages fixtureConfig caseMixedEnvs liveDeleteFilters =
      Except.ok liveDeleteRun ∧
    liveDeleteRun.response.summary.totalDeleted =
      (liveDeleteRun.response.results.map DeleteOutcome.deleted).sum := by
  refine ⟨rfl, rfl, rfl, ?_⟩
  exact (totalDeleted_sums_per_mailbox fixtureConfig caseMixedEnvs
    liveDeleteFilters liveDeleteRun fixtureFolders rfl rfl rfl).1

theorem mem_map_sortByMailbox {ρ : Type} (mailboxOf : ρ → String) (l : List ρ)
    (a : String) :
    a ∈ (sortByMailbox mailboxOf l).map mailboxOf ↔ a ∈ l.map mailboxOf :=
  List.Perm.mem_iff ((sortByMailbox_perm mailboxOf l).map mailboxOf)

/-- C3: for every search and delete request over a directory of distinct
mailbox addresses, aggregation partitions the resolved mailboxes: a mailbox
whose task failed appears in `failures` and not in `results`; a mailbox
whose scans succeeded with at least one match appears in `results` and not
in `failures`; one with zero matches appears in neither; and no mailbox ever
appears in both. -/
theorem aggregation_partition (cfg : ServiceConfig) (envs : List MailboxEnv)
    (dfilters : DeleteFilters) (sfilters : SearchFilters)
    (drun : DeleteRun) (sresp : SearchResponse)
    (dfs sfs : List FolderDescriptor)
    (hnodup : (envs.map (fun e => e.mailbox.smtpAddress)).Nodup)
    (hdfs : resolveFolders cfg.defaultFolders dfilters.folders = Except.ok dfs)
    (hdrun : deleteMessages cfg envs dfilters = Except.ok drun)
    (hsfs : resolveFolders cfg.defaultFolders sfilters.folders = Except.ok sfs)
    (hsrun : searchMessages cfg envs sfilters = Except.ok sresp)
    (env : MailboxEnv) (henv : env ∈ envs) :
    (¬(env.mailbox.smtpAddress ∈
        drun.response.results.map DeleteOutcome.mailbox ∧
      env.mailbox.smtpAddress ∈
        drun.response.failures.map MailboxFailure.mailbox)) ∧
    (∀ msg, env.behavior = MailboxBehavior.fail msg →
      env.mailbox.smtpAddress ∈
        drun.response.failures.map MailboxFailure.mailbox ∧
      env.mailbox.smtpAddress ∉
        drun.response.results.map DeleteOutcome.mailbox) ∧
    (∀ store, env.behavior = MailboxBehavior.ok store →
      ((deleteScanLoop store cfg.pageSize (deleteLimit cfg dfilters)
          env.mailbox.smtpAddress dfs [] []).1 ≠ [] →
        env.mailbox.smtpAddress ∈
          drun.response.results.map DeleteOutcome.mailbox ∧
        env.mailbox.smtpAddress ∉
          drun.response.failures.map MailboxFailure.mailbox) ∧
      ((deleteScanLoop store cfg.pageSize (deleteLimit cfg dfilters)
          env.mailbox.smtpAddress dfs [] []).1 = [] →
        env.mailbox.smtpAddress ∉
          drun.response.results.map DeleteOutcome.mailbox ∧
        env.mailbox.smtpAddress ∉
          drun.response.failures.map MailboxFailure.mailbox)) ∧
    (¬(env.mailbox.smtpAddress ∈ sresp.results.map SearchOutcome.mailbox ∧
      env.mailbox.smtpAddress ∈
        sresp.failures.map MailboxFailure.mailbox)) ∧
    (∀ msg, env.behavior = MailboxBehavior.fail msg →
      env.mailbox.smtpAddress ∈ sresp.failures.map MailboxFailure.mailbox ∧
      env.mailbox.smtpAddress ∉ sresp.results.map SearchOutcome.mailbox) ∧
    (∀ store, env.behavior = MailboxBehavior.ok store →
      (collectMatchesForMailbox store cfg.pageSize (searchLimit cfg sfilters)
          env.mailbox.smtpAddress sfs ≠ [] →
        env.mailbox.smtpAddress ∈ sresp.results.map SearchOutcome.mailbox ∧
        env.mailbox.smtpAddress ∉
          sresp.failures.map MailboxFailure.mailbox) ∧
      (collectMatchesForMailbox store cfg.pageSize (searchLimit cfg sfilters)
          env.mailbox.smtpAddress sfs = [] →
        env.mailbox.smtpAddress ∉ sresp.results.map SearchOutcome.mailbox ∧
        env.mailbox.smtpAddress ∉
          sresp.failures.map MailboxFailure.mailbox)) := by
  have hne : envs.isEmpty = false := by
    cases envs with
    | nil => exact absurd henv (by simp)
    | cons a l => rfl
  have hdr := deleteMessages_ok_elim cfg envs dfilters drun dfs hdfs hdrun
  rw [deleteMessagesResolved_nonempty cfg envs dfilters dfs hne] at hdr
  have hsr := searchMessages_ok_elim cfg envs sfilters sresp sfs hsfs hsrun
  rw [searchMessagesResolved_nonempty cfg envs sfilters sfs hne] at hsr
  have hdresmem : (env.mailbox.smtpAddress ∈
      drun.response.results.map DeleteOutcome.mailbox) ↔
      ∃ o, (runDeleteTask cfg.pageSize (deleteLimit cfg dfilters) dfs
        (deleteModeOf dfilters) dfilters.simulate env).1 =
          some (TaskResult.success o) := by
    rw [hdr]
    exact (mem_map_sortByMailbox DeleteOutcome.mailbox _ _).trans
      (delete_results_addr_iff cfg envs dfilters dfs hnodup env henv)
  have hdfailmem : (env.mailbox.smtpAddress ∈
      drun.response.failures.map MailboxFailure.mailbox) ↔
      ∃ fl, (runDeleteTask cfg.pageSize (deleteLimit cfg dfilters) dfs
        (deleteModeOf dfilters) dfilters.simulate env).1 =
          some (TaskResult.failure fl) := by
    rw [hdr]
    exact delete_failures_addr_iff cfg envs dfilters dfs hnodup env henv
  have hsresmem : (env.mailbox.smtpAddress ∈
      sresp.results.map SearchOutcome.mailbox) ↔
      ∃ o, runSearchTask cfg.pageSize (searchLimit cfg sfilters) sfs env =
          some (TaskResult.success o) := by
    rw [hsr]
    exact (mem_map_sortByMailbox SearchOutcome.mailbox _ _).trans
      (search_results_addr_iff cfg envs sfilters sfs hnodup env henv)
  have hsfailmem : (env.mailbox.smtpAddress ∈
      sresp.failures.map MailboxFailure.mailbox) ↔
      ∃ fl, runSearchTask cfg.pageSize (searchLimit cfg sfilters) sfs env =
          some (TaskResult.failure fl) := by
    rw [hsr]
    exact search_failures_addr_iff cfg envs sfilters sfs hnodup env henv
  refine ⟨?_, ?_, ?_, ?_, ?_, ?_⟩
  · rintro ⟨hR, hF⟩
    rcases hdresmem.mp hR with ⟨o, ho⟩
    rcases hdfailmem.mp hF with ⟨fl, hfl⟩
    rw [ho] at hfl
    exact absurd hfl (by simp)
  · intro msg hb
    have hfst := runDeleteTask_of_fail cfg.pageSize (deleteLimit cfg dfilters)
      dfs (deleteModeOf dfilters) dfilters.simulate env msg hb
    constructor
    · exact hdfailmem.mpr ⟨_, by rw [hfst]⟩
    · intro hR
      rcases hdresmem.mp hR with ⟨o, ho⟩
      rw [hfst] at ho
      exact absurd ho (by simp)
  · intro store hb
    have hfst := runDeleteTask_of_ok cfg.pageSize (deleteLimit cfg dfilters)
      dfs (deleteModeOf dfilters) dfilters.simulate env store hb
    rw [deleteForMailbox_matches_mode_free] at hfst
    constructor
    · intro hmne
      have hfst2 := hfst
      rw [if_neg (by simpa using hmne)] at hfst2
      constructor
      · exact hdresmem.mpr ⟨_, hfst2⟩
      · intro hF
        rcases hdfailmem.mp hF with ⟨fl, hfl⟩
        rw [hfst2] at hfl
        exact absurd hfl (by simp)
    · intro hmeq
      have hfst2 := hfst
      rw [if_pos (by simpa using hmeq)] at hfst2
      constructor
      · intro hR
        rcases hdresmem.mp hR with ⟨o, ho⟩
        rw [hfst2] at ho
        exact absurd ho (by simp)
      · intro hF
        rcases hdfailmem.mp hF with ⟨fl, hfl⟩
        rw [hfst2] at hfl
        exact absurd hfl (by simp)
  · rintro ⟨hR, hF⟩
    rcases hsresmem.mp hR with ⟨o, ho⟩
    rcases hsfailmem.mp hF with ⟨fl, hfl⟩
    rw [ho] at hfl
    exact absurd hfl (by simp)
  · intro msg hb
    have hfst := runSearchTask_of_fail cfg.pageSize (searchLimit cfg sfilters)
      sfs env msg hb
    constructor
    · exact hsfailmem.mpr ⟨_, by rw [hfst]⟩
    · intro hR
      rcases hsresmem.mp hR with ⟨o, ho⟩
      rw [hfst] at ho
      exact absurd ho (by simp)
  · intro store hb
    have hfst := runSearchTask_of_ok cfg.pageSize (searchLimit cfg sfilters)
      sfs env store hb
    constructor
    · intro hmne
      have hfst2 := hfst
      rw [if_neg (by simpa using hmne)] at hfst2
      constructor
      · exact hsresmem.mpr ⟨_, hfst2⟩
      · intro hF
        rcases hsfailmem.mp hF with ⟨fl, hfl⟩
        rw [hfst2] at hfl
        exact absurd hfl (by simp)
    · intro hmeq
      have hfst2 := hfst
      rw [if_pos (by simpa using hmeq)] at hfst2
      constructor
      · intro hR
        rcases hsresmem.mp hR with ⟨o, ho⟩
        rw [hfst2] at ho
        exact absurd ho (by simp)
      · intro hF
        rcases hsfailmem.mp hF with ⟨fl, hfl⟩
        rw [hfst2] at hfl
        exact absurd hfl (by simp)

/-- Witness for `aggregation_partition`: on the four-mailbox directory the
failing mailbox lands in `failures` and not in `results`, for both the
delete and the search request. -/
theorem aggregation_partition_witness :
    (directoryEnvs.map (fun e => e.mailbox.smtpAddress)).Nodup ∧
    (failingEnv.mailbox.smtpAddress ∈
        directoryDeleteRun.response.failures.map MailboxFailure.mailbox ∧
      failingEnv.mailbox.smtpAddress ∉
        directoryDeleteRun.response.results.map DeleteOutcome.mailbox) ∧
    (failingEnv.mailbox.smtpAddress ∈
        directorySearchResponse.failures.map MailboxFailure.mailbox ∧
      failingEnv.mailbox.smtpAddress ∉
        directorySearchResponse.results.map SearchOutcome.mailbox) := by
  have hmem : failingEnv ∈ directoryEnvs := by
    unfold directoryEnvs caseMixedEnvs
    simp
  have h := aggregation_partition fixtureConfig directoryEnvs liveDeleteFilters
    searchFixtureFilters directoryDeleteRun directorySearchResponse
    fixtureFolders fixtureFolders (by decide) rfl rfl rfl rfl failingEnv hmem
  exact ⟨by decide, h.2.1 "Failed to search mailbox folder" rfl,
    h.2.2.2.2.1 "Failed to search mailbox folder" rfl⟩

/-- C6 counterexample: on a directory whose mailbox addresses differ in
case, the delete results come out in the order of the locale-aware
comparator the code uses ("a@x.com" before "B@x.com"), which is not
case-sensitive code-unit lexicographic order — under that order "B@x.com"
(code 66) precedes "a@x.com" (code 97), so the produced list is not
lexicographically sorted. -/
theorem results_not_lex_sorted :
    deleteMessages fixtureConfig caseMixedEnvs caseMixedFilters =
      Except.ok caseMixedRun ∧
    caseMixedRun.response.results.map DeleteOutcome.mailbox =
      ["a@x.com", "B@x.com"] ∧
    lexLe "a@x.com" "B@x.com" = false ∧
    ¬ List.Sorted (fun a b => lexLe a.mailbox b.mailbox = true)
      caseMixedRun.response.results := by
  exact ⟨rfl, by decide, rfl, by decide⟩

/-- C6 amended: for every search or delete request and every input ordering
of per-mailbox outcomes, the results array is a permutation of the
per-mailbox outcomes sorted ascending by mailbox address under the
comparator the code passes to the sort (`localeCompare`, locale-aware:
case-insensitive at the primary level with lowercase-first tie-breaking),
rather than under case-sensitive code-unit lexicographic comparison. -/
theorem results_sorted_by_comparator (cfg : ServiceConfig)
    (envs : List MailboxEnv) (dfilters : DeleteFilters)
    (sfilters : SearchFilters) (drun : DeleteRun) (sresp : SearchResponse)
    (dfs sfs : List FolderDescriptor)
    (hdfs : resolveFolders cfg.defaultFolders dfilters.folders = Except.ok dfs)
    (hdrun : deleteMessages cfg envs dfilters = Except.ok drun)
    (hsfs : resolveFolders cfg.defaultFolders sfilters.folders = Except.ok sfs)
    (hsrun : searchMessages cfg envs sfilters = Except.ok sresp) :
    List.Sorted (fun a b => localeLe a.mailbox b.mailbox = true)
      drun.response.results ∧
    List.Perm drun.response.results (deleteAgg cfg envs dfilters dfs).1 ∧
    List.Sorted (fun a b => localeLe a.mailbox b.mailbox = true)
      sresp.results ∧
    List.Perm sresp.results (searchAgg cfg envs sfilters sfs).1 := by
  have hdr := deleteMessages_ok_elim cfg envs dfilters drun dfs hdfs hdrun
  have hsr := searchMessages_ok_elim cfg envs sfilters sresp sfs hsfs hsrun
  by_cases he : envs.isEmpty
  · have henvs : envs = [] := by simpa using he
    subst henvs
    rw [deleteMessagesResolved_empty] at hdr
    rw [searchMessagesResolved_empty] at hsr
    rw [hdr, hsr]
    exact ⟨List.sorted_nil, List.Perm.refl _, List.sorted_nil, List.Perm.refl _⟩
  · rw [deleteMessagesResolved_nonempty cfg envs dfilters dfs
      (by simpa using he)] at hdr
    rw [searchMessagesResolved_nonempty cfg envs sfilters sfs
      (by simpa using he)] at hsr
    rw [hdr, hsr]
    exact ⟨sortByMailbox_sorted DeleteOutcome.mailbox _,
      sortByMailbox_perm DeleteOutcome.mailbox _,
      sortByMailbox_sorted SearchOutcome.mailbox _,
      sortByMailbox_perm SearchOutcome.mailbox _⟩

/-- Witness for `results_sorted_by_comparator` on the four-mailbox
directory. -/
theorem results_sorted_by_comparator_witness :
    List.Sorted (fun a b => localeLe a.mailbox b.mailbox = true)
      directoryDeleteRun.response.results ∧
    List.Sorted (fun a b => localeLe a.mailbox b.mailbox = true)
      directorySearchResponse.results := by
  have h := results_sorted_by_comparator fixtureConfig directoryEnvs
    liveDeleteFilters searchFixtureFilters directoryDeleteRun
    directorySearchResponse fixtureFolders fixtureFolders rfl rfl rfl rfl
  exact ⟨h.1, h.2.2.1⟩

end ExchangeRemover
